import Mathlib

/-!
Shallow embedding of the resource-utilization aggregation engine of the
Lakesideview administrative portal (files
`src/app/pages/admin/analyticsUtilization.ts` and
`src/app/pages/admin/roomAnalyticsUtils.ts`).

Modelling conventions:
* A JS `Date` is embedded as milliseconds since a local epoch (`Int`).  The
  program strips timezone designators and interprets timestamps as naive
  local wall-clock time (spec §9), so a no-DST linear timeline is faithful:
  `setMinutes(0,0,0)` floors to the hour, `setHours(0,0,0,0)` floors to the
  day, `setDate(getDate()+1)` adds 86,400,000 ms, `getHours`/`getDay` are
  modular arithmetic on the hour/day index (epoch day is a Thursday).
* A possibly-Invalid `Date` (`NaN` time value) is `Option Int`, `none`
  standing for Invalid.  Booking timestamp strings are embedded as their
  `parseDT` results, i.e. `Option Int` fields (`none` = unparseable).
* A JS number that can be `NaN` is `Option ℚ` (`none` = `NaN`); comparison
  against `NaN` is `false` and arithmetic on `NaN` yields `NaN`, matching JS.
* JS `while` loops are embedded as fuel-indexed structural recursions that
  return `none` on fuel exhaustion; every call site supplies fuel that is
  proved sufficient (see the termination theorem), so the `getD` fallback to
  the initial state is never exercised.
-/

namespace LV

def MS_MIN : Int := 60000

def MS_HOUR : Int := 3600000

def MS_DAY : Int := 86400000

/-- Embeds `d.setMinutes(0,0,0)` on an hour-aligned timeline: floor to the hour. -/
def floorToHour (t : Int) : Int := t - t % MS_HOUR

/-- Embeds `d.setHours(0,0,0,0)`: floor to the day. -/
def floorToDay (t : Int) : Int := t - t % MS_DAY

/-- Embeds `d.getHours()` for naive local time. -/
def getHours (t : Int) : Int := (t / MS_HOUR) % 24

/-- Embeds `d.getDay()`: Sun=0..Sat=6; the epoch day (1970-01-01) is a Thursday. -/
def getDay (t : Int) : Int := (t / MS_DAY + 4) % 7

/-- The source's `weekdayMon0`: JS `getDay()` remapped to Mon=0..Sun=6. -/
def weekdayMon0 (t : Int) : Int := (getDay t + 6) % 7

/-- Milliseconds to (fractional) minutes: `ms / MS_MIN` in JS. -/
def msToMin (n : Int) : ℚ := (n : ℚ) / 60000

/-- JS `<` on `Date`s: comparison with an Invalid date is `false`. -/
def dlt (a b : Option Int) : Bool :=
  match a, b with
  | some a, some b => a < b
  | _, _ => false

/-- JS `<=` on `Date`s: comparison with an Invalid date is `false`. -/
def dle (a b : Option Int) : Bool :=
  match a, b with
  | some a, some b => a ≤ b
  | _, _ => false

/-- JS `+` on numbers with `NaN` propagation. -/
def jadd (a b : Option ℚ) : Option ℚ :=
  match a, b with
  | some a, some b => some (a + b)
  | _, _ => none

/-- JS `*` on numbers with `NaN` propagation. -/
def jmul (a b : Option ℚ) : Option ℚ :=
  match a, b with
  | some a, some b => some (a * b)
  | _, _ => none

/-- JS `/` with `NaN` propagation.  Only reached with a nonzero (in fact
positive) denominator in this program, where rational division is faithful. -/
def jdiv (a b : Option ℚ) : Option ℚ :=
  match a, b with
  | some a, some b => some (a / b)
  | _, _ => none

/-- The difference of two `Date`s divided by `MS_MIN`, with `NaN`
propagation: `(end.getTime() - start.getTime()) / MS_MIN`. -/
def jminutes (a b : Option Int) : Option ℚ :=
  match a, b with
  | some a, some b => some (msToMin (a - b))
  | _, _ => none

/-- JS `Math.min` with `NaN` propagation. -/
def jmin (a b : Option ℚ) : Option ℚ :=
  match a, b with
  | some a, some b => some (min a b)
  | _, _ => none

/-- JS `Math.max` with `NaN` propagation. -/
def jmax (a b : Option ℚ) : Option ℚ :=
  match a, b with
  | some a, some b => some (max a b)
  | _, _ => none

/-- JS `Math.round`: round half toward positive infinity. -/
def jround (q : ℚ) : Int := ⌊q + 1 / 2⌋

/-! ## Data model -/

/-- A booking record.  `start_time`/`end_time` are embedded as the result of
the source's `parseDT` (`none` = string not parseable to a valid instant). -/
structure Booking where
  resource_id : String
  start_time : Option Int
  end_time : Option Int
  status : String
  deriving DecidableEq, Repr

structure Resource where
  resource_id : String
  type : String
  name : String
  status : Option String
  capacity : Option ℚ
  deriving DecidableEq, Repr

structure OperatingHours where
  start : Int
  stop : Int
  deriving DecidableEq, Repr

structure HeatBand where
  label : String
  startHour : Int
  endHour : Int
  deriving DecidableEq, Repr

structure Thresholds where
  optimalMax : ℚ
  busyMax : ℚ
  deriving DecidableEq, Repr

inductive NameKey where
  | name
  | resource_id
  deriving DecidableEq, Repr

/-- The union of all `UtilizationOptions` variants (the TS intersections add
`thresholds`, `bands`, `nameKey` to the base shape); each function only reads
the fields its source declares. -/
structure UtilizationOptions where
  includeStatuses : Option (List String) := none
  onlyAvailableResources : Option Bool := none
  resourceType : Option String := none
  operatingHours : Option OperatingHours := none
  thresholds : Option Thresholds := none
  bands : Option (List HeatBand) := none
  nameKey : Option NameKey := none
  deriving DecidableEq, Repr

/-- Reads `opts?.field` below an optional options object. -/
def oget (opts : Option UtilizationOptions) (f : UtilizationOptions → Option α) : Option α :=
  match opts with
  | some o => f o
  | none => none

/-- Embeds `!opts?.operatingHours || (h >= start && h < end)`. -/
def isOpenHour (opts : Option UtilizationOptions) (h : Int) : Bool :=
  match oget opts (·.operatingHours) with
  | some oh => oh.start ≤ h && h < oh.stop
  | none => true

/-- The resource-scope filter shared by every function:
`if (opts?.resourceType && r.type !== opts.resourceType) return false;`
`if (opts?.onlyAvailableResources && r.status && r.status !== "available") return false;`
(an empty string is falsy in JS). -/
def keepResource (opts : Option UtilizationOptions) (r : Resource) : Bool :=
  (match oget opts (·.resourceType) with
   | some rt => !(rt ≠ "" && r.type ≠ rt)
   | none => true) &&
  (match oget opts (·.onlyAvailableResources) with
   | some true =>
       (match r.status with
        | some st => !(st ≠ "" && st ≠ "available")
        | none => true)
   | _ => true)

/-- Embeds `r.capacity || 1`: a missing or falsy (zero) capacity defaults to 1. -/
def capOf (r : Resource) : ℚ :=
  match r.capacity with
  | some c => if c = 0 then 1 else c
  | none => 1

/-- Embeds `new Map(scopedResources.map(r => [r.resource_id, r])).get(id)`:
later entries overwrite earlier ones, so the last match wins. -/
def lookupById (l : List Resource) (id : String) : Option Resource :=
  l.reverse.find? (fun r => r.resource_id == id)

/-! ## Generic hour-by-hour walk (the Time-Window Clipper loop)

Every `while (t < end)` loop in the source has the shape embedded here: it
floors the cursor to its hour, clips the hour to the window end, feeds the
chunk to a body, and advances the cursor to the chunk end.  `brk` records
whether the source loop carries the defensive
`if (t.getTime() === chunkStart.getTime()) break;` statement. -/

def hourWalk (e : Int) (step : Int → Int → Int → σ → σ) (brk : Bool) :
    Nat → Int → σ → Option σ
  | 0, t, s => if t < e then none else some s
  | fuel + 1, t, s =>
    if t < e then
      let hourStart := floorToHour t
      let hourEnd := hourStart + MS_HOUR
      let chunkStart := if hourStart < t then t else hourStart
      let chunkEnd := if e < hourEnd then e else hourEnd
      let s' := step hourStart chunkStart chunkEnd s
      if brk && chunkEnd == chunkStart then some s'
      else hourWalk e step brk fuel chunkEnd s'
    else some s

/-- Fuel sufficient for `hourWalk` starting at `t`: one unit per hour
boundary in `[t, e)` plus one. -/
def walkFuel (t e : Int) : Nat := (e / MS_HOUR - t / MS_HOUR).toNat + 1

/-- Run an hour walk with provably-sufficient fuel; the `getD` branch is dead
(see the termination theorem). -/
def runHourWalk (t e : Int) (step : Int → Int → Int → σ → σ) (brk : Bool) (s : σ) : σ :=
  (hourWalk e step brk (walkFuel t e) t s).getD s

/-- Embeds `let t = new Date(start); while (t < end) ...` where `start`/`end` come
from parsing: when either date is Invalid the guard `t < end` is `false` and
the loop body never runs. -/
def runBookingWalk (start en : Option Int)
    (step : Int → Int → Int → σ → σ) (brk : Bool) (s : σ) : σ :=
  match start, en with
  | some t, some e => runHourWalk t e step brk s
  | _, _ => s

/-- Embeds `for (let d = ...; d < limit; d.setDate(d.getDate() + 1))`. -/
def dayWalk (limit : Int) (step : Int → σ → σ) : Nat → Int → σ → Option σ
  | 0, d, s => if d < limit then none else some s
  | fuel + 1, d, s =>
    if d < limit then dayWalk limit step fuel (d + MS_DAY) (step d s)
    else some s

def dayFuel (d limit : Int) : Nat := ((limit - d) / MS_DAY).toNat + 1

def runDayWalk (d limit : Int) (step : Int → σ → σ) (s : σ) : σ :=
  (dayWalk limit step (dayFuel d limit) d s).getD s

/-- Day walk whose bounds come from parsed (possibly Invalid) dates. -/
def runBookingDayWalk (start en : Option Int) (step : Int → σ → σ) (s : σ) : σ :=
  match start, en with
  | some d0, some e => runDayWalk (floorToDay d0) e step s
  | _, _ => s

/-! ## analyticsUtilization.ts -/

def toHourLabel (h : Int) : String :=
  let isAM := h < 12
  let hour12 := if h = 0 then 12 else if h ≤ 12 then h else h - 12
  toString hour12 ++ " " ++ (if isAM then "AM" else "PM")

def WEEK_LABELS : List String := ["Mon", "Tue", "Wed", "Thu", "Fri", "Sat", "Sun"]

/-- Default `includeStatuses` of `computeUtilizationMetrics` and
`buildUtilizationStatusByType`. -/
def defaultStatuses : List String := ["completed", "confirmed", "active", "upcoming"]

/-- Default `includeStatuses` of `buildWeeklyUsageHeatmap`. -/
def heatmapDefaultStatuses : List String := ["completed", "confirmed", "active"]

/-- Default `includeStatuses` of the two room-level builders in
`roomAnalyticsUtils.ts` (these also accept the misspelling "upcomming"). -/
def roomDefaultStatuses : List String :=
  ["completed", "confirmed", "active", "upcoming", "upcomming"]

/-- The group key of the shared accumulator map: JS `Map<string | number, Acc>`. -/
inductive UKey where
  | num (n : Int)
  | str (s : String)
  deriving DecidableEq, Repr

inductive GroupBy where
  | hour
  | weekday
  | type
  deriving DecidableEq, Repr

/-- The per-bucket accumulator.  `bookedMin` is `NaN`-capable (`none` = `NaN`):
the type-grouping numerator adds `(end - start) / MS_MIN` without checking the
parsed dates for validity, so `NaN` can flow into it. -/
structure Acc where
  bookedMin : Option ℚ
  availMin : ℚ
  bookings : Nat
  resourcesCount : Nat
  deriving DecidableEq, Repr

def Acc.zero : Acc := { bookedMin := some 0, availMin := 0, bookings := 0, resourcesCount := 0 }

/-- Point update of the accumulator map (`getAcc` + field mutation). -/
def updAcc (m : UKey → Acc) (k : UKey) (f : Acc → Acc) : UKey → Acc :=
  fun k' => if k' = k then f (m k') else m k'

/-- The first `totalRangeMin` loop (`computeUtilizationMetrics`):
`if (isOpen) totalRangeMin += Math.max(0, (chunkEnd - chunkStart) / MS_MIN)`. -/
def totalRangeMinutesA (rangeStart rangeEnd : Int) (opts : Option UtilizationOptions) : ℚ :=
  runHourWalk rangeStart rangeEnd
    (fun hourStart chunkStart chunkEnd m =>
      if isOpenHour opts (getHours hourStart) then m + max 0 (msToMin (chunkEnd - chunkStart))
      else m)
    true 0

/-- The `totalRangeMin` loop of `buildUtilizationStatusByType` and
`buildUtilizationByRoomName`:
`if (isOpen && chunkEnd > chunkStart) totalRangeMin += (chunkEnd - chunkStart) / MS_MIN`. -/
def totalRangeMinutesB (rangeStart rangeEnd : Int) (opts : Option UtilizationOptions) : ℚ :=
  runHourWalk rangeStart rangeEnd
    (fun hourStart chunkStart chunkEnd m =>
      if isOpenHour opts (getHours hourStart) && chunkStart < chunkEnd then
        m + msToMin (chunkEnd - chunkStart)
      else m)
    true 0

/-- The availability denominator walk for `hour`/`weekday` grouping: for each
open chunk, add `minutes * (r.capacity || 1)` to the chunk's bucket for every
resource in scope. -/
def denomWalk (rangeStart rangeEnd : Int) (groupBy : GroupBy)
    (opts : Option UtilizationOptions) (scopedRes : List Resource)
    (acc : UKey → Acc) : UKey → Acc :=
  runHourWalk rangeStart rangeEnd
    (fun hourStart chunkStart chunkEnd a =>
      let minutes := max 0 (msToMin (chunkEnd - chunkStart))
      let h := getHours hourStart
      if isOpenHour opts h then
        let key : UKey := if groupBy = .hour then .num h else .num (weekdayMon0 hourStart)
        scopedRes.foldl
          (fun a r => updAcc a key (fun x => { x with availMin := x.availMin + minutes * capOf r }))
          a
      else a)
    true acc

/-- One iteration of the numerator loop of `computeUtilizationMetrics`:
status allow-list, resource scope, parse, clamp, booking count by clamped
start, then either the direct type-bucket add (no operating-hours clipping)
or the hour-by-hour walk. -/
def numeratorStep (includeStatuses : List String) (scopedRes : List Resource)
    (rangeStart rangeEnd : Int) (groupBy : GroupBy) (opts : Option UtilizationOptions)
    (acc : UKey → Acc) (b : Booking) : UKey → Acc :=
  if !includeStatuses.contains b.status then acc
  else
    match lookupById scopedRes b.resource_id with
    | none => acc
    | some r =>
      let bs := b.start_time
      let be := b.end_time
      let start := if dlt bs (some rangeStart) then some rangeStart else bs
      let en := if dlt (some rangeEnd) be then some rangeEnd else be
      if dle en start then acc
      else
        let countTime := if dlt bs (some rangeStart) then some rangeStart else bs
        let acc1 :=
          match countTime with
          | some ct =>
            if rangeStart ≤ ct && ct < rangeEnd then
              let k : UKey :=
                match groupBy with
                | .hour => .num (getHours ct)
                | .weekday => .num (weekdayMon0 ct)
                | .type => .str r.type
              updAcc acc k (fun x => { x with bookings := x.bookings + 1 })
            else acc
          | none => acc
        if groupBy = .type then
          updAcc acc1 (.str r.type)
            (fun x => { x with bookedMin := jadd x.bookedMin (jminutes en start) })
        else
          runBookingWalk start en
            (fun hourStart chunkStart chunkEnd a =>
              let h := getHours hourStart
              if isOpenHour opts h then
                let minutes := max 0 (msToMin (chunkEnd - chunkStart))
                let key : UKey := if groupBy = .hour then .num h else .num (weekdayMon0 hourStart)
                updAcc a key (fun x => { x with bookedMin := jadd x.bookedMin (some minutes) })
              else a)
            true acc1

/-- The core aggregation: booked/available minutes and booking counts grouped
by hour, weekday, or resource type.  The returned JS `Map` is embedded as a
total function (`get(k) ?? zero-acc` in the callers coincides with `getAcc`'s
lazily created zero accumulator). -/
def computeUtilizationMetrics (bookings : List Booking) (resources : List Resource)
    (rangeStart rangeEnd : Int) (groupBy : GroupBy)
    (opts : Option UtilizationOptions) : UKey → Acc :=
  let includeStatuses := (oget opts (·.includeStatuses)).getD defaultStatuses
  let scopedRes := resources.filter (keepResource opts)
  let totalRangeMin := totalRangeMinutesA rangeStart rangeEnd opts
  let acc0 : UKey → Acc := fun _ => Acc.zero
  let acc1 :=
    if groupBy = .type then
      scopedRes.foldl
        (fun a r => updAcc a (.str r.type) (fun x => { x with resourcesCount := x.resourcesCount + 1 }))
        acc0
    else acc0
  let acc2 :=
    if groupBy = .type then
      scopedRes.foldl
        (fun a r => updAcc a (.str r.type) (fun x => { x with availMin := x.availMin + totalRangeMin * capOf r }))
        acc1
    else denomWalk rangeStart rangeEnd groupBy opts scopedRes acc1
  bookings.foldl (numeratorStep includeStatuses scopedRes rangeStart rangeEnd groupBy opts) acc2

/-- The utilization-percentage composition written inline in every builder:
`Math.round(availMin <= 0 ? 0 : Math.min(100, Math.max(0, bookedMin / availMin * 100)))`. -/
def utilPct (bookedMin availMin : ℚ) : Int :=
  jround (if availMin ≤ 0 then 0 else min 100 (max 0 (bookedMin / availMin * 100)))

/-- The `NaN`-aware variant of `utilPct`, used where `bookedMin` flows out of the
shared accumulator (whose type-path can make it `NaN`). -/
def jUtilPct (bookedMin : Option ℚ) (availMin : ℚ) : Option Int :=
  let util : Option ℚ :=
    if availMin ≤ 0 then some 0
    else jmin (some 100) (jmax (some 0) (jmul (jdiv bookedMin (some availMin)) (some 100)))
  util.map jround

structure DailyEntry where
  hour : String
  utilization : Option Int
  deriving DecidableEq, Repr

/-- CHART 1: Daily Utilization Trend (24 points). -/
def buildDailyUtilizationTrend (bookings : List Booking) (resources : List Resource)
    (rangeStart rangeEnd : Int) (opts : Option UtilizationOptions) : List DailyEntry :=
  let acc := computeUtilizationMetrics bookings resources rangeStart rangeEnd .hour opts
  (List.range 24).map fun (h : Nat) =>
    let a := acc (.num (h : Int))
    { hour := toHourLabel (h : Int), utilization := jUtilPct a.bookedMin a.availMin }

structure WeeklyEntry where
  day : String
  utilization : Option Int
  bookings : Nat
  deriving DecidableEq, Repr

/-- CHART 2: Weekly Utilization and Booking Trends (Mon..Sun). -/
def buildWeeklyUtilizationAndBookings (bookings : List Booking) (resources : List Resource)
    (rangeStart rangeEnd : Int) (opts : Option UtilizationOptions) : List WeeklyEntry :=
  let acc := computeUtilizationMetrics bookings resources rangeStart rangeEnd .weekday opts
  WEEK_LABELS.enum.map fun p =>
    let a := acc (.num (p.1 : Int))
    { day := p.2, utilization := jUtilPct a.bookedMin a.availMin, bookings := a.bookings }

/-! ## CHART 3: Utilization Status by Resource Type -/

/-- The per-booking minutes walk of `buildUtilizationStatusByType` (no `break`
statement): sum minutes of open-hour chunks of the clamped interval. -/
def openMinutesWalk (opts : Option UtilizationOptions) (start en : Option Int) : ℚ :=
  runBookingWalk start en
    (fun hourStart chunkStart chunkEnd m =>
      if isOpenHour opts (getHours hourStart) then m + max 0 (msToMin (chunkEnd - chunkStart))
      else m)
    false 0

/-- One iteration of the `bookedByResource` loop of
`buildUtilizationStatusByType` (the map, pre-seeded with a zero per scoped
resource id, is embedded as a total function plus the id-membership check). -/
def statusStep (includeStatuses : List String) (scopedIds : List String)
    (rangeStart rangeEnd : Int) (opts : Option UtilizationOptions)
    (m : String → ℚ) (b : Booking) : String → ℚ :=
  if !includeStatuses.contains b.status then m
  else if !scopedIds.contains b.resource_id then m
  else
    let bs := b.start_time
    let be := b.end_time
    let start := if dlt bs (some rangeStart) then some rangeStart else bs
    let en := if dlt (some rangeEnd) be then some rangeEnd else be
    if dle en start then m
    else
      let minutes := openMinutesWalk opts start en
      fun id => if id = b.resource_id then m id + minutes else m id

/-- Per-type tallies of how many resources fall in each utilization bucket. -/
structure TypeCounts where
  total : Nat
  optimal : Nat
  busy : Nat
  over : Nat
  deriving DecidableEq, Repr

structure TypeRow where
  type : String
  optimal : Int
  busy : Int
  overUtilized : Int
  deriving DecidableEq, Repr

/-- CHART 3: per-resource utilization against `totalRangeMin`, bucketed per
type, reported as percentages with the forced-remainder rule
`over = Math.min(100, Math.max(0, 100 - optimal - busy))`.  The `counts` map
(insertion order, then sorted by key) is embedded as a tally function plus the
deduplicated list of types present, sorted by the string order (modelling
`localeCompare`). -/
def buildUtilizationStatusByType (bookings : List Booking) (resources : List Resource)
    (rangeStart rangeEnd : Int) (opts : Option UtilizationOptions) : List TypeRow :=
  let thresholds := (oget opts (·.thresholds)).getD { optimalMax := 60, busyMax := 85 }
  let includeStatuses := (oget opts (·.includeStatuses)).getD defaultStatuses
  let scopedRes := resources.filter (keepResource opts)
  let totalRangeMin := totalRangeMinutesB rangeStart rangeEnd opts
  let scopedIds := scopedRes.map (·.resource_id)
  let bookedByResource :=
    bookings.foldl (statusStep includeStatuses scopedIds rangeStart rangeEnd opts) (fun _ => 0)
  let counts : String → TypeCounts :=
    scopedRes.foldl
      (fun cm r =>
        let bookedMin := bookedByResource r.resource_id
        let util : ℚ :=
          if totalRangeMin ≤ 0 then 0 else min 100 (max 0 (bookedMin / totalRangeMin * 100))
        fun ty =>
          if ty = r.type then
            let c := cm ty
            if util > thresholds.busyMax then { c with total := c.total + 1, over := c.over + 1 }
            else if util > thresholds.optimalMax then { c with total := c.total + 1, busy := c.busy + 1 }
            else { c with total := c.total + 1, optimal := c.optimal + 1 }
          else cm ty)
      (fun _ => { total := 0, optimal := 0, busy := 0, over := 0 })
  let typesPresent := (scopedRes.map (·.type)).dedup
  (List.insertionSort (fun a b => a ≤ b) typesPresent).map fun ty =>
    let c := counts ty
    let total := if c.total = 0 then 1 else c.total
    let optimal := jround ((c.optimal : ℚ) / (total : ℚ) * 100)
    let busy := jround ((c.busy : ℚ) / (total : ℚ) * 100)
    let over := min 100 (max 0 (100 - optimal - busy))
    { type := ty, optimal := optimal, busy := busy, overUtilized := over }

/-! ## CHART 4: Weekly usage heatmap -/

/-- The default band layout of `buildWeeklyUsageHeatmap`: fourteen one-hour
bands from hour 8 to hour 22. -/
def weeklyDefaultBands : List HeatBand :=
  [ { label := "8-9", startHour := 8, endHour := 9 },
    { label := "9-10", startHour := 9, endHour := 10 },
    { label := "10-11", startHour := 10, endHour := 11 },
    { label := "11-12", startHour := 11, endHour := 12 },
    { label := "12-13", startHour := 12, endHour := 13 },
    { label := "13-14", startHour := 13, endHour := 14 },
    { label := "14-15", startHour := 14, endHour := 15 },
    { label := "15-16", startHour := 15, endHour := 16 },
    { label := "16-17", startHour := 16, endHour := 17 },
    { label := "17-18", startHour := 17, endHour := 18 },
    { label := "18-19", startHour := 18, endHour := 19 },
    { label := "19-20", startHour := 19, endHour := 20 },
    { label := "20-21", startHour := 20, endHour := 21 },
    { label := "21-22", startHour := 21, endHour := 22 } ]

/-- The `[weekday][band]` minute matrices, embedded as functions. -/
def HeatMatrix : Type := Int → Nat → ℚ

def HeatMatrix.zero : HeatMatrix := fun _ _ => 0

def HeatMatrix.add (m : HeatMatrix) (wd : Int) (bi : Nat) (q : ℚ) : HeatMatrix :=
  fun w b => if w = wd ∧ b = bi then m w b + q else m w b

/-- The availability accumulation of `buildWeeklyUsageHeatmap`: for every
calendar day touching the range and every band, the band clipped to the day's
portion of the range, times the number of scoped resources. -/
def heatAvail (rangeStart rangeEnd : Int) (bands : List HeatBand)
    (resourceCount : Nat) : HeatMatrix :=
  runDayWalk (floorToDay rangeStart) rangeEnd
    (fun d m =>
      let nextDay := d + MS_DAY
      let dayWindowStart := if d < rangeStart then rangeStart else d
      let dayWindowEnd := if rangeEnd < nextDay then rangeEnd else nextDay
      if dayWindowEnd ≤ dayWindowStart then m
      else
        let wd := weekdayMon0 d
        (bands.enum).foldl
          (fun m p =>
            let band := p.2
            let bandStart := d + band.startHour * MS_HOUR
            let bandEnd := d + band.endHour * MS_HOUR
            let start := if bandStart < dayWindowStart then dayWindowStart else bandStart
            let en := if dayWindowEnd < bandEnd then dayWindowEnd else bandEnd
            if start < en then m.add wd p.1 (msToMin (en - start) * (resourceCount : ℚ))
            else m)
          m)
    HeatMatrix.zero

/-- One iteration of the booking loop of `buildWeeklyUsageHeatmap`: clamp to
the range, then walk the touched calendar days, clipping to day and band. -/
def heatStep (includeStatuses : List String) (resourceIds : List String)
    (rangeStart rangeEnd : Int) (bands : List HeatBand)
    (m : HeatMatrix) (bkg : Booking) : HeatMatrix :=
  if !includeStatuses.contains bkg.status then m
  else if !resourceIds.contains bkg.resource_id then m
  else
    let bs := bkg.start_time
    let be := bkg.end_time
    let start0 := if dlt bs (some rangeStart) then some rangeStart else bs
    let end0 := if dlt (some rangeEnd) be then some rangeEnd else be
    if dle end0 start0 then m
    else
      runBookingDayWalk start0 end0
        (fun d mm =>
          let nextDay := d + MS_DAY
          let dayClipStart := if dlt (some d) start0 then start0 else some d
          let dayClipEnd := if dlt end0 (some nextDay) then end0 else some nextDay
          if dle dayClipEnd dayClipStart then mm
          else
            match dayClipStart, dayClipEnd with
            | some cs, some ce =>
              let wd := weekdayMon0 d
              (bands.enum).foldl
                (fun mm p =>
                  let band := p.2
                  let bandStart := d + band.startHour * MS_HOUR
                  let bandEnd := d + band.endHour * MS_HOUR
                  let s := if cs < bandStart then bandStart else cs
                  let e := if bandEnd < ce then bandEnd else ce
                  if s < e then mm.add wd p.1 (msToMin (e - s)) else mm)
                mm
            | _, _ => mm)
        m

structure HeatCell where
  band : String
  utilization : Int
  deriving DecidableEq, Repr

structure WeeklyHeatRow where
  day : String
  cells : List HeatCell
  deriving DecidableEq, Repr

structure WeeklyHeatmap where
  bands : List String
  rows : List WeeklyHeatRow
  deriving DecidableEq, Repr

def buildWeeklyUsageHeatmap (bookings : List Booking) (resources : List Resource)
    (rangeStart rangeEnd : Int) (opts : Option UtilizationOptions) : WeeklyHeatmap :=
  let includeStatuses := (oget opts (·.includeStatuses)).getD heatmapDefaultStatuses
  let bands := (oget opts (·.bands)).getD weeklyDefaultBands
  let scopedRes := resources.filter (keepResource opts)
  let resourceIds := scopedRes.map (·.resource_id)
  let resourceCount := scopedRes.length
  let availMin := heatAvail rangeStart rangeEnd bands resourceCount
  let bookedMin :=
    bookings.foldl (heatStep includeStatuses resourceIds rangeStart rangeEnd bands)
      HeatMatrix.zero
  let rows := WEEK_LABELS.enum.map fun dp =>
    let wd : Int := (dp.1 : Int)
    let cells := (bands.enum).map fun bp =>
      let denom := availMin wd bp.1
      let pct : Int := utilPct (bookedMin wd bp.1) denom
      { band := bp.2.label, utilization := pct }
    { day := dp.2, cells := cells }
  { bands := bands.map (·.label), rows := rows }

/-! ## roomAnalyticsUtils.ts -/

/-- Embeds `nameKey === "name" ? (r.name || r.resource_id) : r.resource_id`
(an empty name string is falsy, so it falls back to the id). -/
def resolveRoomName (nameKey : NameKey) (r : Resource) : String :=
  match nameKey with
  | .name => if r.name = "" then r.resource_id else r.name
  | .resource_id => r.resource_id

/-- One iteration of the `bookedById` loop of `buildUtilizationByRoomName`:
unlike `analyticsUtilization.ts`, this module checks `isNaN` on both parsed
timestamps and skips unparseable bookings. -/
def roomStep (includeStatuses : List String) (scopedIds : List String)
    (rangeStart rangeEnd : Int) (opts : Option UtilizationOptions)
    (m : String → ℚ) (b : Booking) : String → ℚ :=
  if !includeStatuses.contains b.status then m
  else if !scopedIds.contains b.resource_id then m
  else if b.start_time.isNone || b.end_time.isNone then m
  else
    let bs := b.start_time
    let be := b.end_time
    let start := if dlt bs (some rangeStart) then some rangeStart else bs
    let en := if dlt (some rangeEnd) be then some rangeEnd else be
    if dle en start then m
    else
      let minutes := openMinutesWalk opts start en
      fun id => if id = b.resource_id then m id + minutes else m id

structure RoomRow where
  roomId : String
  roomName : String
  utilization : Int
  bookedMinutes : Int
  availableMinutes : Int
  deriving DecidableEq, Repr

/-- Per-room time-utilization ranking: map scoped resources to rows, drop
rows whose resolved name is the literal string "undefined", and stable-sort
descending by utilization (`.sort((a, b) => b.utilization - a.utilization)`;
JS `Array.prototype.sort` is stable, so a stable insertion sort by
`b.utilization <= a.utilization` is faithful). -/
def buildUtilizationByRoomName (bookings : List Booking) (resources : List Resource)
    (rangeStart rangeEnd : Int) (opts : Option UtilizationOptions) : List RoomRow :=
  let includeStatuses := (oget opts (·.includeStatuses)).getD roomDefaultStatuses
  let nameKey := (oget opts (·.nameKey)).getD .name
  let scopedRes := resources.filter (keepResource opts)
  let totalRangeMin := totalRangeMinutesB rangeStart rangeEnd opts
  let scopedIds := scopedRes.map (·.resource_id)
  let bookedById :=
    bookings.foldl (roomStep includeStatuses scopedIds rangeStart rangeEnd opts) (fun _ => 0)
  List.insertionSort (fun a b => b.utilization ≤ a.utilization)
    ((scopedRes.map fun r =>
        let bookedMin := bookedById r.resource_id
        let capacity := capOf r
        let availableMin := totalRangeMin * capacity
        { roomId := r.resource_id
          roomName := resolveRoomName nameKey r
          utilization := utilPct bookedMin availableMin
          bookedMinutes := jround bookedMin
          availableMinutes := jround availableMin : RoomRow }).filter
      (fun row => row.roomName ≠ "undefined"))

/-- Per-band available minutes for one unit of capacity
(`availMinPerBand` in `buildRoomTimebandHeatmap`). -/
def bandAvail (rangeStart rangeEnd : Int) (bands : List HeatBand) : Nat → ℚ :=
  runDayWalk (floorToDay rangeStart) rangeEnd
    (fun d af =>
      let nextDay := d + MS_DAY
      let dayWindowStart := if d < rangeStart then rangeStart else d
      let dayWindowEnd := if rangeEnd < nextDay then rangeEnd else nextDay
      if dayWindowEnd ≤ dayWindowStart then af
      else
        (bands.enum).foldl
          (fun af p =>
            let band := p.2
            let bandStart := d + band.startHour * MS_HOUR
            let bandEnd := d + band.endHour * MS_HOUR
            let s := if bandStart < dayWindowStart then dayWindowStart else bandStart
            let e := if dayWindowEnd < bandEnd then dayWindowEnd else bandEnd
            if s < e then (fun j => if j = p.1 then af j + msToMin (e - s) else af j)
            else af)
          af)
    (fun _ => 0)

/-- One iteration of the booking loop of `buildRoomTimebandHeatmap`: the
booked-minutes map keyed by room and band index.  Note the day loop clips a
chunk to the band and the whole clamped booking, but not to the current day. -/
def bandStep (includeStatuses : List String) (scopedIds : List String)
    (rangeStart rangeEnd : Int) (bands : List HeatBand)
    (m : String → Nat → ℚ) (bkg : Booking) : String → Nat → ℚ :=
  if !includeStatuses.contains bkg.status then m
  else if !scopedIds.contains bkg.resource_id then m
  else if bkg.start_time.isNone || bkg.end_time.isNone then m
  else
    let bs := bkg.start_time
    let be := bkg.end_time
    let start0 := if dlt bs (some rangeStart) then some rangeStart else bs
    let end0 := if dlt (some rangeEnd) be then some rangeEnd else be
    if dle end0 start0 then m
    else
      match start0, end0 with
      | some s0, some e0 =>
        runDayWalk (floorToDay s0) e0
          (fun d mm =>
            (bands.enum).foldl
              (fun mm p =>
                let band := p.2
                let bandStart := d + band.startHour * MS_HOUR
                let bandEnd := d + band.endHour * MS_HOUR
                let s := if s0 < bandStart then bandStart else s0
                let e := if bandEnd < e0 then bandEnd else e0
                if s < e then
                  (fun id j =>
                    if id = bkg.resource_id ∧ j = p.1 then mm id j + msToMin (e - s)
                    else mm id j)
                else mm)
              mm)
          m
      | _, _ => m

structure RoomHeatRow where
  roomId : String
  roomName : String
  cells : List HeatCell
  deriving DecidableEq, Repr

structure RoomHeatmap where
  bands : List String
  rooms : List RoomHeatRow
  deriving DecidableEq, Repr

/-- Heatmap of utilization per room and time band.  The `bands` option is
declared mandatory in the TS type but read as `opts?.bands ?? []`: with no
bands supplied the heatmap is empty. -/
def buildRoomTimebandHeatmap (bookings : List Booking) (resources : List Resource)
    (rangeStart rangeEnd : Int) (opts : Option UtilizationOptions) : RoomHeatmap :=
  let includeStatuses := (oget opts (·.includeStatuses)).getD roomDefaultStatuses
  let nameKey := (oget opts (·.nameKey)).getD .name
  let bands := (oget opts (·.bands)).getD []
  let scopedRes := resources.filter (keepResource opts)
  let scopedIds := scopedRes.map (·.resource_id)
  let availMinPerBand := bandAvail rangeStart rangeEnd bands
  let bookedMinByRoomBand :=
    bookings.foldl (bandStep includeStatuses scopedIds rangeStart rangeEnd bands)
      (fun _ _ => 0)
  { bands := bands.map (·.label)
    rooms := scopedRes.map fun r =>
      let cells := (bands.enum).map fun p =>
        let denom := availMinPerBand p.1 * capOf r
        { band := p.2.label
          utilization := utilPct (bookedMinByRoomBand r.resource_id p.1) denom : HeatCell }
      { roomId := r.resource_id, roomName := resolveRoomName nameKey r, cells := cells } }

/-! ## The specification's percentage formula

The spec states the composition rule as
`pct = availMin <= 0 ? 0 : clamp(0, 100, round(bookedMin / availMin * 100))`,
i.e. rounding inside the clamp, while the code rounds the already-clamped
value.  `claimPct` transcribes the spec's wording so the two can be compared. -/

def claimPct (bookedMin availMin : ℚ) : Int :=
  if availMin ≤ 0 then 0 else min 100 (max 0 (jround (bookedMin / availMin * 100)))

/-! ## Concrete scenario data used by the theorems below -/

/-- Scenario B (claim C7): two capacity-1 study rooms. -/
def rsB : List Resource :=
  [ { resource_id := "r1", type := "study-room", name := "A", status := none, capacity := some 1 },
    { resource_id := "r2", type := "study-room", name := "B", status := none, capacity := some 1 } ]

/-- Scenario B: one booking 08:00-09:00 on day 1. -/
def bkB : List Booking :=
  [ { resource_id := "r1", start_time := some 28800000, end_time := some 32400000,
      status := "confirmed" } ]

/-- Scenario B: operating hours 8-9. -/
def optsB : Option UtilizationOptions :=
  some { operatingHours := some { start := 8, stop := 9 } }

/-- Scenario A (claim C8): one capacity-1 resource. -/
def rsA : List Resource :=
  [ { resource_id := "r1", type := "study-room", name := "Room 1", status := none,
      capacity := some 1 } ]

/-- Scenario A: one confirmed booking 09:00-11:00. -/
def bkA : List Booking :=
  [ { resource_id := "r1", start_time := some 32400000, end_time := some 39600000,
      status := "confirmed" } ]

/-- Scenario A: operating hours 8-20. -/
def optsA : Option UtilizationOptions :=
  some { operatingHours := some { start := 8, stop := 20 } }

/-- A capacity-1 study-room resource with the given id (claim C2's input). -/
def mkRes (id : String) : Resource :=
  { resource_id := id, type := "study-room", name := id, status := none, capacity := some 1 }

/-- Eight resources of one type: one will stay idle, seven get 70% usage. -/
def rsSum : List Resource :=
  [mkRes "r0", mkRes "r1", mkRes "r2", mkRes "r3",
   mkRes "r4", mkRes "r5", mkRes "r6", mkRes "r7"]

/-- A confirmed 70-minute booking at the start of the range for the given id. -/
def mkBk (id : String) : Booking :=
  { resource_id := id, start_time := some 0, end_time := some 4200000, status := "confirmed" }

/-- Seven 70-minute bookings over a 100-minute range: seven resources land at
70% utilization (busy), one at 0% (optimal). -/
def bkSum : List Booking :=
  [mkBk "r1", mkBk "r2", mkBk "r3", mkBk "r4", mkBk "r5", mkBk "r6", mkBk "r7"]

/-- A booking whose `end_time` does not parse but whose `start_time` does
(claim C1's input). -/
def badBk : Booking :=
  { resource_id := "r1", start_time := some 32400000, end_time := none, status := "confirmed" }

/-- A one-hour 08:00-09:00 booking of resource `r1` with the given status
(claim C4's input). -/
def stBk (st : String) : Booking :=
  { resource_id := "r1", start_time := some 28800000, end_time := some 32400000, status := st }

/-- The booked/available projection of the shared accumulator: daily and
weekly percentage outputs depend on the accumulator only through it. -/
def projBA (m : UKey → Acc) : UKey → Option ℚ × ℚ :=
  fun k => ((m k).bookedMin, (m k).availMin)

/-! ## Hour-walk arithmetic -/

theorem floorToHour_le (t : Int) : floorToHour t ≤ t := by
  simp only [floorToHour, MS_HOUR]
  omega

theorem lt_floorToHour_add (t : Int) : t < floorToHour t + MS_HOUR := by
  simp only [floorToHour, MS_HOUR]
  omega

theorem floorToHour_ediv (t : Int) : floorToHour t = MS_HOUR * (t / MS_HOUR) := by
  simp only [floorToHour, MS_HOUR]
  omega

/-- If the next hour boundary is still within the window, the cursor's hour
index strictly increases when jumping to it. -/
theorem ediv_lt_of_hourEnd_le {t e : Int} (h : floorToHour t + MS_HOUR ≤ e) :
    t / MS_HOUR < e / MS_HOUR := by
  simp only [floorToHour, MS_HOUR] at h ⊢
  omega

/-- A walk starting exactly at the window end immediately returns. -/
theorem hourWalk_at_end {σ : Type} (e : Int) (step : Int → Int → Int → σ → σ)
    (brk : Bool) (fuel : Nat) (s : σ) : hourWalk e step brk fuel e s = some s := by
  cases fuel <;> simp [hourWalk]

/-- A walk starting at or past the window end immediately returns. -/
theorem hourWalk_of_ge {σ : Type} {e t : Int} (h : e ≤ t)
    (step : Int → Int → Int → σ → σ) (brk : Bool) (fuel : Nat) (s : σ) :
    hourWalk e step brk fuel t s = some s := by
  cases fuel <;> simp [hourWalk, if_neg (by omega : ¬ t < e)]

/-- Fuel sufficiency: one unit of fuel per hour boundary inside the window
plus one always completes the walk. -/
theorem hourWalk_isSome {σ : Type} (e : Int) (step : Int → Int → Int → σ → σ)
    (brk : Bool) :
    ∀ (fuel : Nat) (t : Int) (s : σ), walkFuel t e ≤ fuel →
      (hourWalk e step brk fuel t s).isSome := by
  intro fuel
  induction fuel with
  | zero => intro t s h; simp [walkFuel] at h
  | succ n ih =>
    intro t s h
    by_cases ht : t < e
    · simp only [hourWalk, if_pos ht]
      set hourStart := floorToHour t with hhs
      set chunkEnd := if e < hourStart + MS_HOUR then e else hourStart + MS_HOUR with hce
      by_cases hb : (brk && (chunkEnd == if hourStart < t then t else hourStart)) = true
      · simp only [hb, if_true, Option.isSome_some]
      · simp only [hb, if_false, Bool.false_eq_true]
        by_cases hle : e < hourStart + MS_HOUR
        · rw [hce, if_pos hle, hourWalk_at_end]
          simp
        · push_neg at hle
          rw [hce, if_neg (by omega)]
          apply ih
          have harith : (hourStart + MS_HOUR) / MS_HOUR = t / MS_HOUR + 1 := by
            rw [hhs]
            simp only [floorToHour, MS_HOUR]
            omega
          simp only [walkFuel] at h ⊢
          rw [harith]
          have hidx : t / MS_HOUR < e / MS_HOUR := ediv_lt_of_hourEnd_le (by rw [hhs] at hle; exact hle)
          omega
    · cases brk <;> simp [hourWalk, if_neg ht]

/-- Claim C10: termination of every hour-walking loop.  First conjunct: from
any cursor strictly inside the window the clipped chunk end
`min(end, floorToHour(t) + 1h)` lies strictly beyond the cursor, so each
iteration strictly advances (the zero-width-chunk `break` can never fire and
the cursor escapes the window).  Second conjunct: the standard fuel
`walkFuel` (with which every loop in `computeUtilizationMetrics`,
`buildUtilizationStatusByType`, `buildUtilizationByRoomName`, and the other
builders is run via `runHourWalk`/`runBookingWalk`) always suffices: the
fuel-indexed walk never exhausts its fuel, i.e. the embedded `while` loop
terminates for every window and every loop body. -/
theorem hour_walks_terminate :
    (∀ t e : Int, t < e →
      t < min e (floorToHour t + MS_HOUR) ∧
        ¬ (min e (floorToHour t + MS_HOUR) = (if floorToHour t < t then t else floorToHour t))) ∧
    (∀ (σ : Type) (e : Int) (step : Int → Int → Int → σ → σ) (brk : Bool)
        (fuel : Nat) (t : Int) (s : σ), walkFuel t e ≤ fuel →
        (hourWalk e step brk fuel t s).isSome) := by
  constructor
  · intro t e ht
    have h1 := lt_floorToHour_add t
    have h2 := floorToHour_le t
    constructor
    · omega
    · intro hcontra
      rcases le_or_lt e (floorToHour t + MS_HOUR) with hle | hlt
      · rw [min_eq_left hle] at hcontra
        by_cases hft : floorToHour t < t <;> simp [hft] at hcontra <;> omega
      · rw [min_eq_right hlt.le] at hcontra
        by_cases hft : floorToHour t < t <;> simp [hft] at hcontra <;> omega
  · intro σ e step brk fuel t s h
    exact hourWalk_isSome e step brk fuel t s h

/-- Witness for the termination theorem at a concrete walk. -/
theorem hour_walks_terminate_witness :
    (hourWalk 7200000 (fun _ _ ce (s : ℚ) => s + msToMin ce) true
      (walkFuel 0 7200000) 0 0).isSome :=
  hour_walks_terminate.2 ℚ 7200000 (fun _ _ ce s => s + msToMin ce) true
    (walkFuel 0 7200000) 0 0 (le_refl _)

/-! ## Generic walk lemmas -/

/-- A state predicate preserved by the loop body is preserved by the whole
walk (including the fuel-exhaustion fallback). -/
theorem runHourWalk_invariant {σ : Type} {P : σ → Prop} (t e : Int)
    (step : Int → Int → Int → σ → σ) (brk : Bool) (s : σ)
    (hstep : ∀ hs cs ce x, P x → P (step hs cs ce x)) (hs0 : P s) :
    P (runHourWalk t e step brk s) := by
  have key : ∀ (fuel : Nat) (t : Int) (x : σ), P x →
      ∀ r, hourWalk e step brk fuel t x = some r → P r := by
    intro fuel
    induction fuel with
    | zero =>
      intro t x hx r hr
      simp only [hourWalk] at hr
      split at hr
      · exact absurd hr (by simp)
      · cases hr; exact hx
    | succ n ih =>
      intro t x hx r hr
      simp only [hourWalk] at hr
      set cs := if floorToHour t < t then t else floorToHour t with hcs
      set ce := if e < floorToHour t + MS_HOUR then e else floorToHour t + MS_HOUR with hce
      split at hr
      · split at hr
        · cases hr; exact hstep _ _ _ _ hx
        · exact ih _ _ (hstep _ _ _ _ hx) r hr
      · cases hr; exact hx
  simp only [runHourWalk]
  cases h : hourWalk e step brk (walkFuel t e) t s with
  | none => simpa using hs0
  | some r => simpa using key _ _ _ hs0 r h

/-- Invariant preservation for the `Option`-bounded booking walk. -/
theorem runBookingWalk_invariant {σ : Type} {P : σ → Prop} (start en : Option Int)
    (step : Int → Int → Int → σ → σ) (brk : Bool) (s : σ)
    (hstep : ∀ hs cs ce x, P x → P (step hs cs ce x)) (hs0 : P s) :
    P (runBookingWalk start en step brk s) := by
  cases start <;> cases en <;> simp only [runBookingWalk] <;>
    first
      | exact hs0
      | exact runHourWalk_invariant _ _ step brk s hstep hs0

/-- Simulation: a function commuting with the loop body commutes with the
whole walk. -/
theorem hourWalk_map {σ τ : Type} (f : σ → τ) (e : Int)
    (stepA : Int → Int → Int → σ → σ) (stepB : Int → Int → Int → τ → τ) (brk : Bool)
    (hcomm : ∀ hs cs ce x, f (stepA hs cs ce x) = stepB hs cs ce (f x)) :
    ∀ (fuel : Nat) (t : Int) (s : σ),
      (hourWalk e stepA brk fuel t s).map f = hourWalk e stepB brk fuel t (f s) := by
  intro fuel
  induction fuel with
  | zero =>
    intro t s
    simp only [hourWalk]
    split <;> simp
  | succ n ih =>
    intro t s
    simp only [hourWalk]
    set cs := if floorToHour t < t then t else floorToHour t with hcs
    set ce := if e < floorToHour t + MS_HOUR then e else floorToHour t + MS_HOUR with hce
    split
    · split
      · simp [hcomm]
      · rw [ih, hcomm]
    · simp

theorem runHourWalk_map {σ τ : Type} (f : σ → τ) (t e : Int)
    (stepA : Int → Int → Int → σ → σ) (stepB : Int → Int → Int → τ → τ) (brk : Bool)
    (s : σ) (hcomm : ∀ hs cs ce x, f (stepA hs cs ce x) = stepB hs cs ce (f x)) :
    f (runHourWalk t e stepA brk s) = runHourWalk t e stepB brk (f s) := by
  simp only [runHourWalk]
  rw [← hourWalk_map f e stepA stepB brk hcomm]
  cases hourWalk e stepA brk (walkFuel t e) t s <;> simp

theorem runBookingWalk_map {σ τ : Type} (f : σ → τ) (start en : Option Int)
    (stepA : Int → Int → Int → σ → σ) (stepB : Int → Int → Int → τ → τ) (brk : Bool)
    (s : σ) (hcomm : ∀ hs cs ce x, f (stepA hs cs ce x) = stepB hs cs ce (f x)) :
    f (runBookingWalk start en stepA brk s) = runBookingWalk start en stepB brk (f s) := by
  cases start <;> cases en <;> simp [runBookingWalk]
  exact runHourWalk_map f _ _ stepA stepB brk s hcomm

/-- A predicate preserved by a fold's step is preserved by the fold. -/
theorem foldl_invariant {α β : Type} {P : α → Prop} (f : α → β → α)
    (hstep : ∀ s b, P s → P (f s b)) :
    ∀ (l : List β) (s : α), P s → P (List.foldl f s l) := by
  intro l
  induction l with
  | nil => intro s hs; simpa using hs
  | cons b l ih => intro s hs; exact ih _ (hstep s b hs)

/-- Deleting a fold element whose step is the identity on every state leaves
the fold unchanged. -/
theorem foldl_middle_id {α β : Type} (f : α → β → α) (b : β)
    (hid : ∀ s, f s b = s) (l1 l2 : List β) (s : α) :
    List.foldl f s (l1 ++ b :: l2) = List.foldl f s (l1 ++ l2) := by
  simp [List.foldl_append, hid]

/-! ## Claim C5: default heat bands -/

/-- Claim C5 counterexample: with `bands` absent, `buildRoomTimebandHeatmap`
produces an empty band layout (its default is `opts?.bands ?? []`), not the
14 one-hour bands 8-22 the claim asserts for both heatmap builders; its
sibling `buildWeeklyUsageHeatmap` does default to the 14 bands. -/
theorem C5_counterexample :
    (buildRoomTimebandHeatmap [] [] 0 86400000 none).bands = [] ∧
    (buildWeeklyUsageHeatmap [] [] 0 86400000 none).bands.length = 14 := by
  constructor
  · simp [buildRoomTimebandHeatmap, oget]
  · simp [buildWeeklyUsageHeatmap, oget, weeklyDefaultBands, heatAvail, runDayWalk, dayWalk,
      dayFuel, heatmapDefaultStatuses, WEEK_LABELS]

/-- Claim C5 amended: when `opts.bands` is absent, `buildWeeklyUsageHeatmap`
uses the 14 one-hour bands covering hours 8 through 22 (returned labels
"8-9" .. "21-22", with `startHour = 8 + i` and `endHour = 9 + i` for band
`i`), while `buildRoomTimebandHeatmap` uses the empty band list. -/
theorem C5_amended (bk : List Booking) (rs : List Resource) (a b : Int)
    (opts : Option UtilizationOptions) (hb : oget opts (·.bands) = none) :
    (buildWeeklyUsageHeatmap bk rs a b opts).bands =
      ["8-9", "9-10", "10-11", "11-12", "12-13", "13-14", "14-15",
       "15-16", "16-17", "17-18", "18-19", "19-20", "20-21", "21-22"] ∧
    weeklyDefaultBands.length = 14 ∧
    (∀ i : Nat, i < 14 →
      (weeklyDefaultBands.get? i).map (fun bd => (bd.startHour, bd.endHour)) =
        some ((8 + i : Int), (9 + i : Int))) ∧
    (buildRoomTimebandHeatmap bk rs a b opts).bands = [] := by
  refine ⟨?_, by simp [weeklyDefaultBands], ?_, ?_⟩
  · simp [buildWeeklyUsageHeatmap, hb, weeklyDefaultBands]
  · decide
  · simp [buildRoomTimebandHeatmap, hb]

/-- Witness instantiating the amended C5 statement. -/
theorem C5_amended_witness :
    (buildWeeklyUsageHeatmap [] [] 0 86400000 none).bands =
      ["8-9", "9-10", "10-11", "11-12", "12-13", "13-14", "14-15",
       "15-16", "16-17", "17-18", "18-19", "19-20", "20-21", "21-22"] :=
  (C5_amended [] [] 0 86400000 none rfl).1

/-! ## Claim C7: Scenario B (type-grouped denominator and numerator) -/

set_option maxRecDepth 80000 in
/-- Claim C7: two capacity-1 study-rooms, one allow-listed booking
08:00-09:00 on day 1, a 2-day range, operating hours 8-9: the type bucket
for "study-room" accumulates exactly 240 available minutes and 60 booked
minutes (the type-path numerator applies no operating-hours clipping), one
booking, two resources, and the percentage formula yields 25%. -/
theorem C7_scenarioB :
    computeUtilizationMetrics bkB rsB 0 172800000 .type optsB (.str "study-room") =
      { bookedMin := some 60, availMin := 240, bookings := 1, resourcesCount := 2 } ∧
    utilPct 60 240 = 25 := by
  constructor
  · simp [computeUtilizationMetrics, totalRangeMinutesA, runHourWalk, walkFuel, hourWalk,
      numeratorStep, denomWalk, runBookingWalk, updAcc, Acc.zero, lookupById, oget,
      keepResource, capOf, isOpenHour, getHours, floorToHour, weekdayMon0, getDay,
      msToMin, MS_HOUR, MS_MIN, MS_DAY, dlt, dle, jadd, jminutes, defaultStatuses,
      optsB, bkB, rsB, Int.emod, Int.ediv]
    norm_num
  · simp [utilPct, jround]
    norm_num [Int.floor_eq_iff]

/-! ## Claim C8: Scenario A (daily trend) -/

set_option maxRecDepth 80000 in
/-- Claim C8: one capacity-1 resource, operating hours 8-20, one confirmed
booking 09:00-11:00, range = that day: the daily trend has 24 entries, the
"9 AM" and "10 AM" entries report 100 and every other hour reports 0. -/
theorem C8_scenarioA :
    buildDailyUtilizationTrend bkA rsA 0 86400000 optsA =
      [ { hour := "12 AM", utilization := some 0 }, { hour := "1 AM", utilization := some 0 },
        { hour := "2 AM", utilization := some 0 }, { hour := "3 AM", utilization := some 0 },
        { hour := "4 AM", utilization := some 0 }, { hour := "5 AM", utilization := some 0 },
        { hour := "6 AM", utilization := some 0 }, { hour := "7 AM", utilization := some 0 },
        { hour := "8 AM", utilization := some 0 }, { hour := "9 AM", utilization := some 100 },
        { hour := "10 AM", utilization := some 100 }, { hour := "11 AM", utilization := some 0 },
        { hour := "12 PM", utilization := some 0 }, { hour := "1 PM", utilization := some 0 },
        { hour := "2 PM", utilization := some 0 }, { hour := "3 PM", utilization := some 0 },
        { hour := "4 PM", utilization := some 0 }, { hour := "5 PM", utilization := some 0 },
        { hour := "6 PM", utilization := some 0 }, { hour := "7 PM", utilization := some 0 },
        { hour := "8 PM", utilization := some 0 }, { hour := "9 PM", utilization := some 0 },
        { hour := "10 PM", utilization := some 0 }, { hour := "11 PM", utilization := some 0 } ] := by
  simp [buildDailyUtilizationTrend, computeUtilizationMetrics, totalRangeMinutesA, runHourWalk,
    walkFuel, hourWalk, numeratorStep, denomWalk, runBookingWalk, updAcc, Acc.zero, lookupById,
    oget, keepResource, capOf, isOpenHour, getHours, floorToHour, weekdayMon0, getDay,
    msToMin, MS_HOUR, MS_MIN, MS_DAY, dlt, dle, jadd, jminutes, defaultStatuses, jUtilPct,
    jmin, jmax, jmul, jdiv, jround, toHourLabel, List.range_succ,
    optsA, bkA, rsA, Int.emod, Int.ediv]
  norm_num
  decide

/-! ## Claim C2: the type-status sum law -/

theorem jround_nonneg {q : ℚ} (h : 0 ≤ q) : 0 ≤ jround q := by
  simp only [jround]
  exact Int.le_floor.mpr (by push_cast; linarith)

set_option maxRecDepth 80000 in
/-- Claim C2 counterexample: with 8 resources of one type, 1 idle (optimal)
and 7 at 70% (busy), the reported percentages are `round(12.5) = 13` and
`round(87.5) = 88`; the forced remainder `100 - 13 - 88 = -1` is clamped to
0, so the row sums to 101, not 100. -/
theorem C2_counterexample :
    buildUtilizationStatusByType bkSum rsSum 0 6000000 none =
      [{ type := "study-room", optimal := 13, busy := 88, overUtilized := 0 }] ∧
    ¬ ((13 : Int) + 88 + 0 = 100) := by
  constructor
  · simp [buildUtilizationStatusByType, totalRangeMinutesB, runHourWalk, walkFuel, hourWalk,
      statusStep, openMinutesWalk, runBookingWalk, oget, keepResource, capOf, isOpenHour,
      getHours, floorToHour, msToMin, MS_HOUR, MS_MIN, MS_DAY, dlt, dle, defaultStatuses,
      jround, List.insertionSort, List.orderedInsert, List.dedup, bkSum, rsSum, mkRes, mkBk,
      Int.emod, Int.ediv]
    norm_num [Int.floor_eq_iff]
  · decide

/-- Arithmetic core of the forced-remainder rule. -/
theorem sum_forced_remainder {o b : Int} (ho : 0 ≤ o) (hb : 0 ≤ b) :
    o + b + min 100 (max 0 (100 - o - b)) = max 100 (o + b) := by
  rcases le_total (100 - o - b) 0 with h | h
  · rw [max_eq_left h, min_eq_right (by omega), max_eq_right (by omega)]
    omega
  · rw [max_eq_right h, min_eq_right (by omega), max_eq_left (by omega)]
    omega

/-- Claim C2 amended: for every row of `buildUtilizationStatusByType`,
`optimal + busy + overUtilized = max 100 (optimal + busy)`: the three
percentages sum to exactly 100 whenever the two independently rounded
percentages do not already exceed 100 (the forced remainder is clamped at 0,
so in the residual half-rounding case the sum is `optimal + busy > 100`). -/
theorem C2_amended (bks : List Booking) (rs : List Resource) (rS rE : Int)
    (opts : Option UtilizationOptions) (row : TypeRow)
    (hmem : row ∈ buildUtilizationStatusByType bks rs rS rE opts) :
    row.optimal + row.busy + row.overUtilized = max 100 (row.optimal + row.busy) := by
  simp only [buildUtilizationStatusByType, List.mem_map] at hmem
  obtain ⟨ty, _, hrow⟩ := hmem
  subst hrow
  exact sum_forced_remainder (jround_nonneg (by positivity)) (jround_nonneg (by positivity))

/-- Witness instantiating the amended C2 statement: a single idle resource
produces the row (100, 0, 0), which sums to 100. -/
theorem C2_amended_witness :
    ({ type := "study-room", optimal := 100, busy := 0, overUtilized := 0 } : TypeRow).optimal +
      ({ type := "study-room", optimal := 100, busy := 0, overUtilized := 0 } : TypeRow).busy +
      ({ type := "study-room", optimal := 100, busy := 0, overUtilized := 0 } : TypeRow).overUtilized =
    max 100
      (({ type := "study-room", optimal := 100, busy := 0, overUtilized := 0 } : TypeRow).optimal +
        ({ type := "study-room", optimal := 100, busy := 0, overUtilized := 0 } : TypeRow).busy) := by
  apply C2_amended [] [mkRes "r0"] 0 3600000 none
  have heval : buildUtilizationStatusByType [] [mkRes "r0"] 0 3600000 none =
      [{ type := "study-room", optimal := 100, busy := 0, overUtilized := 0 }] := by
    simp [buildUtilizationStatusByType, totalRangeMinutesB, runHourWalk, walkFuel, hourWalk,
      oget, keepResource, capOf, isOpenHour, getHours, floorToHour, msToMin, MS_HOUR, MS_MIN,
      dlt, dle, defaultStatuses, jround, List.insertionSort, List.orderedInsert, List.dedup,
      mkRes, Int.emod, Int.ediv]
    norm_num [Int.floor_eq_iff]
  rw [heval]
  exact List.mem_singleton_self _

/-! ## Claim C4: the default status allow-lists -/

set_option maxRecDepth 80000 in
/-- Claim C4 counterexample: the same one-hour booking, once with status
"upcoming" and once with status "confirmed", against the default options of
`buildWeeklyUsageHeatmap`: the "upcoming" booking is NOT counted (cell
reports 0) while the "confirmed" one is (cell reports 100), because this
builder's default allow-list is only completed/confirmed/active. -/
theorem C4_counterexample :
    ((buildWeeklyUsageHeatmap [stBk "upcoming"] rsA 0 86400000 none).rows.get? 3).map
        (fun row => row.cells.get? 0) = some (some { band := "8-9", utilization := 0 }) ∧
    ((buildWeeklyUsageHeatmap [stBk "confirmed"] rsA 0 86400000 none).rows.get? 3).map
        (fun row => row.cells.get? 0) = some (some { band := "8-9", utilization := 100 }) := by
  constructor <;>
  · simp [buildWeeklyUsageHeatmap, heatAvail, heatStep, runDayWalk, dayWalk, dayFuel,
      runBookingDayWalk, HeatMatrix.zero, HeatMatrix.add, oget, keepResource, capOf,
      weekdayMon0, getDay, floorToDay, msToMin, MS_HOUR, MS_MIN, MS_DAY, dlt, dle,
      heatmapDefaultStatuses, weeklyDefaultBands, utilPct, jround, WEEK_LABELS, List.enum,
      List.enumFrom, stBk, rsA, Int.emod, Int.ediv]
    norm_num [Int.floor_eq_iff]

theorem numeratorStep_skip (inc : List String) (scopedRes : List Resource)
    (rS rE : Int) (gb : GroupBy) (opts : Option UtilizationOptions)
    (acc : UKey → Acc) (b : Booking) (h : inc.contains b.status = false) :
    numeratorStep inc scopedRes rS rE gb opts acc b = acc := by
  have h' : ¬ b.status ∈ inc := by simpa using h
  simp [numeratorStep, h']

theorem statusStep_skip (inc scopedIds : List String) (rS rE : Int)
    (opts : Option UtilizationOptions) (m : String → ℚ) (b : Booking)
    (h : inc.contains b.status = false) :
    statusStep inc scopedIds rS rE opts m b = m := by
  have h' : ¬ b.status ∈ inc := by simpa using h
  simp [statusStep, h']

theorem heatStep_skip (inc resourceIds : List String) (rS rE : Int)
    (bands : List HeatBand) (m : HeatMatrix) (b : Booking)
    (h : inc.contains b.status = false) :
    heatStep inc resourceIds rS rE bands m b = m := by
  have h' : ¬ b.status ∈ inc := by simpa using h
  simp [heatStep, h']

theorem roomStep_skip (inc scopedIds : List String) (rS rE : Int)
    (opts : Option UtilizationOptions) (m : String → ℚ) (b : Booking)
    (h : inc.contains b.status = false) :
    roomStep inc scopedIds rS rE opts m b = m := by
  have h' : ¬ b.status ∈ inc := by simpa using h
  simp [roomStep, h']

theorem bandStep_skip (inc scopedIds : List String) (rS rE : Int)
    (bands : List HeatBand) (m : String → Nat → ℚ) (b : Booking)
    (h : inc.contains b.status = false) :
    bandStep inc scopedIds rS rE bands m b = m := by
  have h' : ¬ b.status ∈ inc := by simpa using h
  simp [bandStep, h']

/-- Claim C4 amended: the default allow-list is
completed/confirmed/active/upcoming for `computeUtilizationMetrics` (hence
the daily and weekly builders) and `buildUtilizationStatusByType`; it is only
completed/confirmed/active for `buildWeeklyUsageHeatmap` (upcoming excluded);
the room builders additionally accept the misspelling "upcomming".  With
`includeStatuses` absent, a booking whose status is outside the respective
default list is excluded from every accumulator: removing it from the input
leaves each function's output unchanged. -/
theorem C4_amended :
    defaultStatuses = ["completed", "confirmed", "active", "upcoming"] ∧
    heatmapDefaultStatuses = ["completed", "confirmed", "active"] ∧
    roomDefaultStatuses = ["completed", "confirmed", "active", "upcoming", "upcomming"] ∧
    (∀ (bks1 bks2 : List Booking) (b : Booking) (rs : List Resource) (rS rE : Int)
        (gb : GroupBy) (opts : Option UtilizationOptions),
      oget opts (·.includeStatuses) = none →
      defaultStatuses.contains b.status = false →
      computeUtilizationMetrics (bks1 ++ b :: bks2) rs rS rE gb opts =
        computeUtilizationMetrics (bks1 ++ bks2) rs rS rE gb opts) ∧
    (∀ (bks1 bks2 : List Booking) (b : Booking) (rs : List Resource) (rS rE : Int)
        (opts : Option UtilizationOptions),
      oget opts (·.includeStatuses) = none →
      defaultStatuses.contains b.status = false →
      buildUtilizationStatusByType (bks1 ++ b :: bks2) rs rS rE opts =
        buildUtilizationStatusByType (bks1 ++ bks2) rs rS rE opts) ∧
    (∀ (bks1 bks2 : List Booking) (b : Booking) (rs : List Resource) (rS rE : Int)
        (opts : Option UtilizationOptions),
      oget opts (·.includeStatuses) = none →
      heatmapDefaultStatuses.contains b.status = false →
      buildWeeklyUsageHeatmap (bks1 ++ b :: bks2) rs rS rE opts =
        buildWeeklyUsageHeatmap (bks1 ++ bks2) rs rS rE opts) ∧
    (∀ (bks1 bks2 : List Booking) (b : Booking) (rs : List Resource) (rS rE : Int)
        (opts : Option UtilizationOptions),
      oget opts (·.includeStatuses) = none →
      roomDefaultStatuses.contains b.status = false →
      buildUtilizationByRoomName (bks1 ++ b :: bks2) rs rS rE opts =
        buildUtilizationByRoomName (bks1 ++ bks2) rs rS rE opts) ∧
    (∀ (bks1 bks2 : List Booking) (b : Booking) (rs : List Resource) (rS rE : Int)
        (opts : Option UtilizationOptions),
      oget opts (·.includeStatuses) = none →
      roomDefaultStatuses.contains b.status = false →
      buildRoomTimebandHeatmap (bks1 ++ b :: bks2) rs rS rE opts =
        buildRoomTimebandHeatmap (bks1 ++ bks2) rs rS rE opts) := by
  refine ⟨rfl, rfl, rfl, ?_, ?_, ?_, ?_, ?_⟩
  · intro bks1 bks2 b rs rS rE gb opts hinc hst
    simp only [computeUtilizationMetrics, hinc, Option.getD_none]
    rw [foldl_middle_id _ b (fun s => numeratorStep_skip _ _ _ _ _ _ s b hst)]
  · intro bks1 bks2 b rs rS rE opts hinc hst
    simp only [buildUtilizationStatusByType, hinc, Option.getD_none]
    rw [foldl_middle_id _ b (fun s => statusStep_skip _ _ _ _ _ s b hst)]
  · intro bks1 bks2 b rs rS rE opts hinc hst
    simp only [buildWeeklyUsageHeatmap, hinc, Option.getD_none]
    rw [foldl_middle_id _ b (fun s => heatStep_skip _ _ _ _ _ s b hst)]
  · intro bks1 bks2 b rs rS rE opts hinc hst
    simp only [buildUtilizationByRoomName, hinc, Option.getD_none]
    rw [foldl_middle_id _ b (fun s => roomStep_skip _ _ _ _ _ s b hst)]
  · intro bks1 bks2 b rs rS rE opts hinc hst
    simp only [buildRoomTimebandHeatmap, hinc, Option.getD_none]
    rw [foldl_middle_id _ b (fun s => bandStep_skip _ _ _ _ _ s b hst)]

/-- Witness instantiating the amended C4 statement: a cancelled booking is
dropped by `computeUtilizationMetrics` under the default allow-list. -/
theorem C4_amended_witness :
    computeUtilizationMetrics [stBk "cancelled"] rsA 0 86400000 .hour none =
      computeUtilizationMetrics [] rsA 0 86400000 .hour none :=
  C4_amended.2.2.2.1 [] [] (stBk "cancelled") rsA 0 86400000 .hour none rfl (by decide)

/-! ## Claim C9: the room ranking -/

/-- Claim C9: `buildUtilizationByRoomName` returns a list sorted in
descending order of `utilization` (the stable sort by
`b.utilization - a.utilization`), no returned row has the literal resolved
name "undefined" (those are filtered out), and under the default name key an
empty room name falls back to the `resource_id`. -/
theorem C9_room_ranking (bks : List Booking) (rs : List Resource) (rS rE : Int)
    (opts : Option UtilizationOptions) :
    List.Sorted (fun a b : RoomRow => b.utilization ≤ a.utilization)
      (buildUtilizationByRoomName bks rs rS rE opts) ∧
    (∀ row ∈ buildUtilizationByRoomName bks rs rS rE opts, row.roomName ≠ "undefined") ∧
    (∀ r : Resource, resolveRoomName .name r =
      if r.name = "" then r.resource_id else r.name) := by
  haveI : IsTotal RoomRow (fun a b : RoomRow => b.utilization ≤ a.utilization) :=
    ⟨fun a b => Int.le_total _ _⟩
  haveI : IsTrans RoomRow (fun a b : RoomRow => b.utilization ≤ a.utilization) :=
    ⟨fun _ _ _ hab hbc => le_trans hbc hab⟩
  refine ⟨?_, ?_, fun r => rfl⟩
  · simp only [buildUtilizationByRoomName]
    exact List.sorted_insertionSort _ _
  · intro row hrow
    simp only [buildUtilizationByRoomName] at hrow
    have hmem := (List.perm_insertionSort
      (fun a b : RoomRow => b.utilization ≤ a.utilization) _).mem_iff.mp hrow
    have hp := (List.mem_filter.mp hmem).2
    simpa using hp

/-- Witness instantiating claim C9's per-row conjunct at a concrete input. -/
theorem C9_room_ranking_witness :
    ∃ row ∈ buildUtilizationByRoomName [] [mkRes "r0"] 0 3600000 none,
      row.roomName ≠ "undefined" := by
  have heval : buildUtilizationByRoomName [] [mkRes "r0"] 0 3600000 none =
      [{ roomId := "r0", roomName := "r0", utilization := 0,
         bookedMinutes := 0, availableMinutes := 60 }] := by
    simp [buildUtilizationByRoomName, totalRangeMinutesB, runHourWalk, walkFuel, hourWalk,
      oget, keepResource, capOf, isOpenHour, getHours, floorToHour, msToMin, MS_HOUR, MS_MIN,
      dlt, dle, roomDefaultStatuses, utilPct, jround, resolveRoomName,
      List.insertionSort, List.orderedInsert, mkRes, Int.emod, Int.ediv]
    norm_num [Int.floor_eq_iff]
  refine ⟨{ roomId := "r0", roomName := "r0", utilization := 0,
            bookedMinutes := 0, availableMinutes := 60 }, ?_, ?_⟩
  · rw [heval]; exact List.mem_singleton_self _
  · exact (C9_room_ranking [] [mkRes "r0"] 0 3600000 none).2.1 _
      (by rw [heval]; exact List.mem_singleton_self _)

/-! ## Claim C6: clamping to the query range -/

/-- The minutes accumulated by the open-hours walk never exceed the walked
window's length: contributions come only from chunks of `[t, e)`. -/
theorem openMinutesWalk_le (opts : Option UtilizationOptions) (s e : Int) :
    openMinutesWalk opts (some s) (some e) ≤ max 0 (msToMin (e - s)) := by
  have key : ∀ (fuel : Nat) (t : Int) (m : ℚ), t ≤ e →
      ∀ r, hourWalk e
          (fun hourStart chunkStart chunkEnd m =>
            if isOpenHour opts (getHours hourStart) then m + max 0 (msToMin (chunkEnd - chunkStart))
            else m)
          false fuel t m = some r →
        r ≤ m + msToMin (e - t) := by
    intro fuel
    induction fuel with
    | zero =>
      intro t m hte r hr
      simp only [hourWalk] at hr
      split at hr
      · exact absurd hr (by simp)
      · cases hr
        have hc : (0 : ℚ) ≤ ((e - t : Int) : ℚ) := by exact_mod_cast (by omega : (0 : Int) ≤ e - t)
        have : (0 : ℚ) ≤ msToMin (e - t) := by
          simp only [msToMin]
          positivity
        linarith
    | succ n ih =>
      intro t m hte r hr
      simp only [hourWalk, Bool.false_and, Bool.false_eq_true, if_false] at hr
      by_cases ht : t < e
      · rw [if_pos ht] at hr
        set cs := if floorToHour t < t then t else floorToHour t with hcs
        set ce := if e < floorToHour t + MS_HOUR then e else floorToHour t + MS_HOUR with hce
        have hcs_eq : cs = t := by
          have := floorToHour_le t
          rw [hcs]
          split <;> omega
        have hce_gt : t < ce := by
          have := lt_floorToHour_add t
          rw [hce]
          split <;> omega
        have hce_le : ce ≤ e := by
          by_cases hlt : e < floorToHour t + MS_HOUR
          · rw [hce, if_pos hlt]
          · rw [hce, if_neg hlt]; omega
        have hrec := ih ce _ hce_le r hr
        have hstep : (if isOpenHour opts (getHours (floorToHour t)) = true
              then m + max 0 (msToMin (ce - cs)) else m) ≤ m + msToMin (ce - t) := by
          have hnn : (0 : ℚ) ≤ msToMin (ce - t) := by
            simp only [msToMin]
            have : (0 : ℚ) ≤ ((ce - t : Int) : ℚ) := by exact_mod_cast (by omega : (0 : Int) ≤ ce - t)
            positivity
          rw [hcs_eq]
          split
          · have : max 0 (msToMin (ce - t)) = msToMin (ce - t) := max_eq_right hnn
            rw [this]
          · linarith
        have hsplit : msToMin (ce - t) + msToMin (e - ce) = msToMin (e - t) := by
          simp only [msToMin]
          push_cast
          ring
        calc r ≤ (if isOpenHour opts (getHours (floorToHour t)) = true
                  then m + max 0 (msToMin (ce - cs)) else m) + msToMin (e - ce) := hrec
          _ ≤ m + msToMin (ce - t) + msToMin (e - ce) := by linarith
          _ = m + msToMin (e - t) := by rw [add_assoc, hsplit]
      · rw [if_neg ht] at hr
        cases hr
        have : (0 : ℚ) ≤ msToMin (e - t) := by
          simp only [msToMin]
          have : (0 : ℚ) ≤ ((e - t : Int) : ℚ) := by exact_mod_cast (by omega : (0 : Int) ≤ e - t)
          positivity
        linarith
  by_cases hse : s ≤ e
  · have hnn : (0 : ℚ) ≤ msToMin (e - s) := by
      simp only [msToMin]
      have : (0 : ℚ) ≤ ((e - s : Int) : ℚ) := by exact_mod_cast (by omega : (0 : Int) ≤ e - s)
      positivity
    rw [max_eq_right hnn]
    simp only [openMinutesWalk, runBookingWalk, runHourWalk]
    obtain ⟨o, ho⟩ : ∃ o, hourWalk e
        (fun hourStart chunkStart chunkEnd m =>
          if isOpenHour opts (getHours hourStart) then m + max 0 (msToMin (chunkEnd - chunkStart))
          else m)
        false (walkFuel s e) s 0 = o := ⟨_, rfl⟩
    rw [ho]
    cases o with
    | none => simpa using hnn
    | some r =>
      have hb := key (walkFuel s e) s 0 hse r ho
      simpa using hb
  · push_neg at hse
    simp only [openMinutesWalk, runBookingWalk, runHourWalk]
    rw [hourWalk_of_ge (by omega : e ≤ s)]
    simp [le_max_iff]

/-- Claim C6: for a booking with parseable timestamps, every per-booking
accumulation step works only on the clamped interval
`[max(start, rangeStart), min(end, rangeEnd))`: whenever that interval is
empty (booking outside the range, or `end_time <= start_time`), the step of
every builder leaves its accumulator untouched — zero minutes and zero
booking count, with no division and no negative minutes.  The final conjunct
bounds the open-hours minutes walk by the clamped window's length, so counted
minutes come only from the clamped interval. -/
theorem C6_clamped_interval :
    (∀ (inc : List String) (scopedRes : List Resource) (rS rE : Int) (gb : GroupBy)
        (opts : Option UtilizationOptions) (acc : UKey → Acc) (b : Booking) (s e : Int),
      b.start_time = some s → b.end_time = some e → min rE e ≤ max rS s →
      numeratorStep inc scopedRes rS rE gb opts acc b = acc) ∧
    (∀ (inc scopedIds : List String) (rS rE : Int) (opts : Option UtilizationOptions)
        (m : String → ℚ) (b : Booking) (s e : Int),
      b.start_time = some s → b.end_time = some e → min rE e ≤ max rS s →
      statusStep inc scopedIds rS rE opts m b = m) ∧
    (∀ (inc resourceIds : List String) (rS rE : Int) (bands : List HeatBand)
        (m : HeatMatrix) (b : Booking) (s e : Int),
      b.start_time = some s → b.end_time = some e → min rE e ≤ max rS s →
      heatStep inc resourceIds rS rE bands m b = m) ∧
    (∀ (inc scopedIds : List String) (rS rE : Int) (opts : Option UtilizationOptions)
        (m : String → ℚ) (b : Booking) (s e : Int),
      b.start_time = some s → b.end_time = some e → min rE e ≤ max rS s →
      roomStep inc scopedIds rS rE opts m b = m) ∧
    (∀ (inc scopedIds : List String) (rS rE : Int) (bands : List HeatBand)
        (m : String → Nat → ℚ) (b : Booking) (s e : Int),
      b.start_time = some s → b.end_time = some e → min rE e ≤ max rS s →
      bandStep inc scopedIds rS rE bands m b = m) ∧
    (∀ (opts : Option UtilizationOptions) (s e : Int),
      openMinutesWalk opts (some s) (some e) ≤ max 0 (msToMin (e - s))) := by
  have hdle : ∀ (rS rE s e : Int), min rE e ≤ max rS s →
      dle (if dlt (some rE) (some e) then (some rE : Option Int) else some e)
        (if dlt (some s) (some rS) then (some rS : Option Int) else some s) = true := by
    intro rS rE s e hcl
    by_cases h1 : rE < e <;> by_cases h2 : s < rS <;>
      simp [dlt, dle, h1, h2] <;> omega
  refine ⟨?_, ?_, ?_, ?_, ?_, fun opts s e => openMinutesWalk_le opts s e⟩
  · intro inc scopedRes rS rE gb opts acc b s e hs he hcl
    cases hl : lookupById scopedRes b.resource_id <;>
      simp [numeratorStep, hs, he, hdle rS rE s e hcl, hl]
  · intro inc scopedIds rS rE opts m b s e hs he hcl
    simp [statusStep, hs, he, hdle rS rE s e hcl]
  · intro inc resourceIds rS rE bands m b s e hs he hcl
    simp [heatStep, hs, he, hdle rS rE s e hcl]
  · intro inc scopedIds rS rE opts m b s e hs he hcl
    simp [roomStep, hs, he, hdle rS rE s e hcl]
  · intro inc scopedIds rS rE bands m b s e hs he hcl
    simp [bandStep, hs, he, hdle rS rE s e hcl]

/-- Witness instantiating claim C6: a booking lying entirely before the
query range contributes nothing to the core numerator accumulator. -/
theorem C6_clamped_interval_witness :
    numeratorStep ["confirmed"] rsA 0 86400000 .hour none (fun _ => Acc.zero)
      { resource_id := "r1", start_time := some (-7200000), end_time := some (-3600000),
        status := "confirmed" } = (fun _ => Acc.zero) :=
  C6_clamped_interval.1 ["confirmed"] rsA 0 86400000 .hour none (fun _ => Acc.zero)
    _ (-7200000) (-3600000) rfl rfl (by decide)

/-! ## Claim C3: the percentage formula -/

/-- Rounding the clamped ratio (what the code does) equals clamping the
rounded ratio (what the spec writes). -/
theorem utilPct_eq_claimPct (b a : ℚ) : utilPct b a = claimPct b a := by
  simp only [utilPct, claimPct, jround]
  by_cases ha : a ≤ 0
  · rw [if_pos ha, if_pos ha]
    norm_num
  · rw [if_neg ha, if_neg ha]
    set x := b / a * 100 with hx
    rcases le_total x 0 with hx0 | hx0
    · rw [max_eq_left hx0, min_eq_right (by norm_num : (0 : ℚ) ≤ 100)]
      have hup : ⌊x + 1 / 2⌋ ≤ 0 := by
        have h1 : ⌊x + 1 / 2⌋ ≤ ⌊(0 : ℚ) + 1 / 2⌋ := Int.floor_le_floor (by linarith)
        have h2 : ⌊(0 : ℚ) + 1 / 2⌋ = 0 := by norm_num [Int.floor_eq_iff]
        omega
      rw [max_eq_left hup, min_eq_right (by norm_num : (0 : Int) ≤ 100)]
      norm_num
    · rcases le_total x 100 with hx100 | hx100
      · rw [max_eq_right hx0, min_eq_right hx100]
        have hlo : 0 ≤ ⌊x + 1 / 2⌋ := Int.le_floor.mpr (by push_cast; linarith)
        have hhi : ⌊x + 1 / 2⌋ ≤ 100 := by
          have : ⌊x + 1 / 2⌋ ≤ ⌊(100 : ℚ) + 1 / 2⌋ := Int.floor_le_floor (by linarith)
          have h100 : ⌊(100 : ℚ) + 1 / 2⌋ = 100 := by
            norm_num [Int.floor_eq_iff]
          omega
        rw [max_eq_right hlo, min_eq_right hhi]
      · rw [max_eq_right (by linarith : (0 : ℚ) ≤ x), min_eq_left hx100]
        have h100 : ⌊(100 : ℚ) + 1 / 2⌋ = 100 := by norm_num [Int.floor_eq_iff]
        have hge : 100 ≤ ⌊x + 1 / 2⌋ := by
          have : ⌊(100 : ℚ) + 1 / 2⌋ ≤ ⌊x + 1 / 2⌋ := Int.floor_le_floor (by linarith)
          omega
        rw [max_eq_right (by omega : (0 : Int) ≤ ⌊x + 1 / 2⌋), min_eq_left (by omega)]
        exact h100

/-- Bounds of the percentage formula. -/
theorem utilPct_bounds (b a : ℚ) : 0 ≤ utilPct b a ∧ utilPct b a ≤ 100 := by
  rw [utilPct_eq_claimPct]
  simp only [claimPct]
  split
  · omega
  · constructor
    · have h1 : (0 : Int) ≤ max 0 (jround (b / a * 100)) := le_max_left _ _
      omega
    · exact min_le_left _ _

/-- On a genuine (non-`NaN`) numerator the `NaN`-aware composition agrees
with the pure one. -/
theorem jUtilPct_some (b a : ℚ) : jUtilPct (some b) a = some (utilPct b a) := by
  by_cases ha : a ≤ 0 <;>
    simp [jUtilPct, utilPct, jmin, jmax, jmul, jdiv, ha]

/-- In `hour`/`weekday` grouping the accumulator's booked minutes are never
`NaN`: only the type-grouping branch adds an unchecked parse result. -/
theorem bookedMin_isSome (bks : List Booking) (rs : List Resource) (rS rE : Int)
    (gb : GroupBy) (opts : Option UtilizationOptions) (hgb : gb ≠ .type) :
    ∀ k, ((computeUtilizationMetrics bks rs rS rE gb opts) k).bookedMin.isSome := by
  have hupd : ∀ (m : UKey → Acc) (k : UKey) (f : Acc → Acc),
      (∀ x : Acc, x.bookedMin.isSome → (f x).bookedMin.isSome) →
      (∀ k', (m k').bookedMin.isSome) → ∀ k', ((updAcc m k f) k').bookedMin.isSome := by
    intro m k f hf hm k'
    simp only [updAcc]
    split
    · exact hf _ (hm k')
    · exact hm k'
  have hwalkH : ∀ (t e : Int) (wstep : Int → Int → Int → (UKey → Acc) → UKey → Acc)
      (brk : Bool) (m : UKey → Acc),
      (∀ hs cs ce x, (∀ k, (x k).bookedMin.isSome = true) →
        ∀ k, ((wstep hs cs ce x) k).bookedMin.isSome = true) →
      (∀ k, (m k).bookedMin.isSome = true) →
      ∀ k, ((runHourWalk t e wstep brk m) k).bookedMin.isSome = true :=
    fun t e wstep brk m hstep hm =>
      @runHourWalk_invariant _ (fun x => ∀ k, (x k).bookedMin.isSome = true) t e wstep brk m hstep hm
  have hwalkB : ∀ (st en : Option Int) (wstep : Int → Int → Int → (UKey → Acc) → UKey → Acc)
      (brk : Bool) (m : UKey → Acc),
      (∀ hs cs ce x, (∀ k, (x k).bookedMin.isSome = true) →
        ∀ k, ((wstep hs cs ce x) k).bookedMin.isSome = true) →
      (∀ k, (m k).bookedMin.isSome = true) →
      ∀ k, ((runBookingWalk st en wstep brk m) k).bookedMin.isSome = true :=
    fun st en wstep brk m hstep hm =>
      @runBookingWalk_invariant _ (fun x => ∀ k, (x k).bookedMin.isSome = true) st en wstep brk m hstep hm
  have hnum : ∀ (inc : List String) (sc : List Resource) (m : UKey → Acc) (b : Booking),
      (∀ k, (m k).bookedMin.isSome = true) →
      ∀ k, ((numeratorStep inc sc rS rE gb opts m b) k).bookedMin.isSome = true := by
    intro inc sc m b hm
    simp only [numeratorStep]
    split
    · exact hm
    · cases hl : lookupById sc b.resource_id with
      | none => exact hm
      | some r =>
        set st := (if dlt b.start_time (some rS) then some rS else b.start_time : Option Int) with hst
        set en2 := (if dlt (some rE) b.end_time then some rE else b.end_time : Option Int) with hen2
        split
        · exact hm
        · rename_i hgbsplit
          apply hwalkB
          · intro hs cs ce x hx
            split
            · apply hupd _ _ _ _ hx
              intro y hy
              simp only [jadd]
              cases hby : y.bookedMin with
              | none => simp [hby] at hy
              | some q => simp
            · exact hx
          · clear_value st en2
            cases st with
            | none => exact hm
            | some ct =>
              by_cases hc : (decide (rS ≤ ct) && decide (ct < rE)) = true
              · simp only [if_pos hc]
                exact hupd _ _ _ (fun x hx => hx) hm
              · simp only [if_neg hc]
                exact hm
  have hdenom : ∀ k, ((denomWalk rS rE gb opts (rs.filter (keepResource opts))
      (fun _ => Acc.zero)) k).bookedMin.isSome = true := by
    simp only [denomWalk]
    apply hwalkH
    · intro hs cs ce x hx
      split
      · have hres : ∀ (l : List Resource) (m : UKey → Acc),
            (∀ k, (m k).bookedMin.isSome = true) →
            ∀ k, ((List.foldl (fun a r => updAcc a
                (if gb = GroupBy.hour then UKey.num (getHours hs)
                 else UKey.num (weekdayMon0 hs))
                (fun x => { x with availMin := x.availMin + max 0 (msToMin (ce - cs)) * capOf r })) m l) k).bookedMin.isSome = true := by
          intro l
          induction l with
          | nil => intro m hm; simpa using hm
          | cons r l ih =>
            intro m hm
            exact ih _ (hupd _ _ _ (fun x hx => hx) hm)
        exact hres _ _ hx
      · exact hx
    · intro k'
      simp [Acc.zero]
  simp only [computeUtilizationMetrics, if_neg hgb]
  have hfold : ∀ (l : List Booking) (m : UKey → Acc),
      (∀ k, (m k).bookedMin.isSome = true) →
      ∀ k, ((List.foldl (numeratorStep ((oget opts (·.includeStatuses)).getD defaultStatuses)
          (rs.filter (keepResource opts)) rS rE gb opts) m l) k).bookedMin.isSome = true := by
    intro l
    induction l with
    | nil => intro m hm; simpa using hm
    | cons b l ih =>
      intro m hm
      exact ih _ (hnum _ _ m b hm)
  exact hfold bks _ hdenom

/-- Claim C3: every utilization percentage any builder returns is the spec's
formula `availMin <= 0 ? 0 : clamp(0, 100, round(bookedMin / availMin * 100))`
applied to that bucket's accumulated minutes, and lies in `[0, 100]` (never
`NaN`): the code's rounding of the clamped ratio equals the spec's clamping
of the rounded ratio; daily and weekly entries expose the formula over the
core accumulator's buckets (whose booked minutes are never `NaN` for
hour/weekday grouping); every room-ranking row and every heatmap cell is the
formula applied to its accumulated booked and available minutes. -/
theorem C3_percentage_formula :
    (∀ b a : ℚ, utilPct b a = claimPct b a ∧ 0 ≤ utilPct b a ∧ utilPct b a ≤ 100) ∧
    (∀ b a : ℚ, jUtilPct (some b) a = some (utilPct b a)) ∧
    (∀ (bks : List Booking) (rs : List Resource) (rS rE : Int)
        (opts : Option UtilizationOptions) (h : Nat), h < 24 →
      ∃ bq : ℚ,
        ((computeUtilizationMetrics bks rs rS rE .hour opts) (.num (h : Int))).bookedMin = some bq ∧
        (buildDailyUtilizationTrend bks rs rS rE opts)[h]? =
          some { hour := toHourLabel (h : Int),
                 utilization := some (utilPct bq
                   ((computeUtilizationMetrics bks rs rS rE .hour opts) (.num (h : Int))).availMin) }) ∧
    (∀ (bks : List Booking) (rs : List Resource) (rS rE : Int)
        (opts : Option UtilizationOptions) (i : Nat), i < 7 →
      ∃ (bq : ℚ) (d : String), WEEK_LABELS[i]? = some d ∧
        ((computeUtilizationMetrics bks rs rS rE .weekday opts) (.num (i : Int))).bookedMin = some bq ∧
        (buildWeeklyUtilizationAndBookings bks rs rS rE opts)[i]? =
          some { day := d,
                 utilization := some (utilPct bq
                   ((computeUtilizationMetrics bks rs rS rE .weekday opts) (.num (i : Int))).availMin),
                 bookings :=
                   ((computeUtilizationMetrics bks rs rS rE .weekday opts) (.num (i : Int))).bookings }) ∧
    (∀ (bks : List Booking) (rs : List Resource) (rS rE : Int)
        (opts : Option UtilizationOptions),
      ∀ row ∈ buildUtilizationByRoomName bks rs rS rE opts,
        ∃ b a, row.utilization = utilPct b a) ∧
    (∀ (bks : List Booking) (rs : List Resource) (rS rE : Int)
        (opts : Option UtilizationOptions),
      ∀ row ∈ (buildWeeklyUsageHeatmap bks rs rS rE opts).rows,
        ∀ cell ∈ row.cells, ∃ b a, cell.utilization = utilPct b a) ∧
    (∀ (bks : List Booking) (rs : List Resource) (rS rE : Int)
        (opts : Option UtilizationOptions),
      ∀ room ∈ (buildRoomTimebandHeatmap bks rs rS rE opts).rooms,
        ∀ cell ∈ room.cells, ∃ b a, cell.utilization = utilPct b a) := by
  refine ⟨fun b a => ⟨utilPct_eq_claimPct b a, (utilPct_bounds b a).1, (utilPct_bounds b a).2⟩,
    jUtilPct_some, ?_, ?_, ?_, ?_, ?_⟩
  · intro bks rs rS rE opts h hlt
    obtain ⟨bq, hbq⟩ := Option.isSome_iff_exists.mp
      (bookedMin_isSome bks rs rS rE .hour opts (by decide) (.num (h : Int)))
    refine ⟨bq, hbq, ?_⟩
    simp only [buildDailyUtilizationTrend]
    rw [List.getElem?_map, List.getElem?_range hlt]
    simp only [Option.map_some']
    rw [hbq, jUtilPct_some]
  · intro bks rs rS rE opts i hlt
    have hlen : i < WEEK_LABELS.length := by simp only [WEEK_LABELS]; simpa using hlt
    obtain ⟨bq, hbq⟩ := Option.isSome_iff_exists.mp
      (bookedMin_isSome bks rs rS rE .weekday opts (by decide) (.num (i : Int)))
    refine ⟨bq, WEEK_LABELS[i], List.getElem?_eq_getElem hlen, hbq, ?_⟩
    simp only [buildWeeklyUtilizationAndBookings]
    rw [List.getElem?_map, List.getElem?_enum, List.getElem?_eq_getElem hlen]
    simp only [Option.map_some']
    rw [hbq, jUtilPct_some]
  · intro bks rs rS rE opts row hrow
    simp only [buildUtilizationByRoomName] at hrow
    have hmem := (List.perm_insertionSort
      (fun a b : RoomRow => b.utilization ≤ a.utilization) _).mem_iff.mp hrow
    obtain ⟨r, _, hmap⟩ := List.mem_map.mp (List.mem_filter.mp hmem).1
    rw [← hmap]
    exact ⟨_, _, rfl⟩
  · intro bks rs rS rE opts row hrow cell hcell
    simp only [buildWeeklyUsageHeatmap] at hrow
    obtain ⟨dp, _, hdp⟩ := List.mem_map.mp hrow
    rw [← hdp] at hcell
    obtain ⟨bp, _, hbp⟩ := List.mem_map.mp hcell
    rw [← hbp]
    exact ⟨_, _, rfl⟩
  · intro bks rs rS rE opts room hroom cell hcell
    simp only [buildRoomTimebandHeatmap] at hroom
    obtain ⟨r, _, hr⟩ := List.mem_map.mp hroom
    rw [← hr] at hcell
    obtain ⟨bp, _, hbp⟩ := List.mem_map.mp hcell
    rw [← hbp]
    exact ⟨_, _, rfl⟩

/-- Witness instantiating claim C3's daily conjunct in Scenario A at 9 AM. -/
theorem C3_percentage_formula_witness :
    ∃ bq : ℚ,
      ((computeUtilizationMetrics bkA rsA 0 86400000 .hour optsA) (.num (9 : Int))).bookedMin =
        some bq ∧
      (buildDailyUtilizationTrend bkA rsA 0 86400000 optsA)[(9 : Nat)]? =
        some { hour := toHourLabel (9 : Int),
               utilization := some (utilPct bq
                 ((computeUtilizationMetrics bkA rsA 0 86400000 .hour optsA) (.num (9 : Int))).availMin) } := by
  have h := C3_percentage_formula.2.2.1 bkA rsA 0 86400000 optsA 9 (by decide)
  simpa using h

/-! ## Claim C1: unparseable timestamps -/

theorem dlt_none_left (b : Option Int) : dlt none b = false := by cases b <;> rfl

theorem dlt_none_right (a : Option Int) : dlt a none = false := by cases a <;> rfl

theorem dle_none_left (b : Option Int) : dle none b = false := by cases b <;> rfl

theorem dle_none_right (a : Option Int) : dle a none = false := by cases a <;> rfl

theorem runBookingWalk_none_left {σ : Type} (en : Option Int)
    (step : Int → Int → Int → σ → σ) (brk : Bool) (s : σ) :
    runBookingWalk none en step brk s = s := by cases en <;> rfl

theorem runBookingWalk_none_right {σ : Type} (st : Option Int)
    (step : Int → Int → Int → σ → σ) (brk : Bool) (s : σ) :
    runBookingWalk st none step brk s = s := by cases st <;> rfl

theorem runBookingDayWalk_none_left {σ : Type} (en : Option Int)
    (step : Int → σ → σ) (s : σ) : runBookingDayWalk none en step s = s := by
  cases en <;> rfl

theorem runBookingDayWalk_none_right {σ : Type} (st : Option Int)
    (step : Int → σ → σ) (s : σ) : runBookingDayWalk st none step s = s := by
  cases st <;> rfl

set_option maxRecDepth 80000 in
/-- Claim C1 counterexample: a confirmed booking with a parseable
`start_time` inside the range but an unparseable `end_time` is NOT skipped by
`buildWeeklyUtilizationAndBookings`: the `NaN`-polluted clamp check
`end <= start` is `false`, the booking-count attribution (which only looks at
the clamped start) still fires, and the output differs from the output with
the booking removed (the Thursday bookings count is 1 instead of 0). -/
theorem C1_counterexample :
    buildWeeklyUtilizationAndBookings [badBk] rsA 0 86400000 none ≠
      buildWeeklyUtilizationAndBookings [] rsA 0 86400000 none := by
  simp [buildWeeklyUtilizationAndBookings, computeUtilizationMetrics, totalRangeMinutesA,
    runHourWalk, walkFuel, hourWalk, numeratorStep, denomWalk, runBookingWalk, updAcc,
    Acc.zero, lookupById, oget, keepResource, capOf, isOpenHour, getHours, floorToHour,
    weekdayMon0, getDay, msToMin, MS_HOUR, MS_MIN, MS_DAY, dlt, dle, jadd, jminutes,
    defaultStatuses, jUtilPct, jmin, jmax, jmul, jdiv, jround, WEEK_LABELS, List.enum,
    List.enumFrom, badBk, rsA, Int.emod, Int.ediv]

theorem projBA_upd_bookings (m : UKey → Acc) (k : UKey) :
    projBA (updAcc m k (fun x => { x with bookings := x.bookings + 1 })) = projBA m := by
  funext k'
  simp only [projBA, updAcc]
  split <;> rfl

theorem statusStep_unparseable (inc scopedIds : List String) (rS rE : Int)
    (opts : Option UtilizationOptions) (m : String → ℚ) (b : Booking)
    (hb : b.start_time = none ∨ b.end_time = none) :
    statusStep inc scopedIds rS rE opts m b = m := by
  rcases hb with hb | hb <;>
    simp [statusStep, hb, dlt_none_left, dlt_none_right, dle_none_left, dle_none_right,
      openMinutesWalk, runBookingWalk_none_left, runBookingWalk_none_right]

theorem roomStep_unparseable (inc scopedIds : List String) (rS rE : Int)
    (opts : Option UtilizationOptions) (m : String → ℚ) (b : Booking)
    (hb : b.start_time = none ∨ b.end_time = none) :
    roomStep inc scopedIds rS rE opts m b = m := by
  rcases hb with hb | hb <;> simp [roomStep, hb]

theorem bandStep_unparseable (inc scopedIds : List String) (rS rE : Int)
    (bands : List HeatBand) (m : String → Nat → ℚ) (b : Booking)
    (hb : b.start_time = none ∨ b.end_time = none) :
    bandStep inc scopedIds rS rE bands m b = m := by
  rcases hb with hb | hb <;> simp [bandStep, hb]

theorem heatStep_unparseable (inc resourceIds : List String) (rS rE : Int)
    (bands : List HeatBand) (m : HeatMatrix) (b : Booking)
    (hb : b.start_time = none ∨ b.end_time = none) :
    heatStep inc resourceIds rS rE bands m b = m := by
  rcases hb with hb | hb <;>
    simp [heatStep, hb, dlt_none_left, dlt_none_right, dle_none_left, dle_none_right,
      runBookingDayWalk_none_left, runBookingDayWalk_none_right]

theorem numeratorStep_hour_unparseable (inc : List String) (sc : List Resource)
    (rS rE : Int) (opts : Option UtilizationOptions) (m : UKey → Acc) (b : Booking)
    (hb : b.start_time = none ∨ b.end_time = none) :
    projBA (numeratorStep inc sc rS rE .hour opts m b) = projBA m := by
  rcases hb with hb | hb
  · cases hl : lookupById sc b.resource_id with
    | none => simp [numeratorStep, hl]
    | some r =>
      simp [numeratorStep, hl, hb, dlt_none_left, dle_none_right, runBookingWalk_none_left]
  · cases hl : lookupById sc b.resource_id with
    | none => simp [numeratorStep, hl]
    | some r =>
      simp [numeratorStep, hl, hb, dlt_none_right, dle_none_left, runBookingWalk_none_right]
      by_cases hs0 : b.status ∈ inc
      · rw [if_pos hs0]
        generalize (if dlt b.start_time (some rS) = true then some rS else b.start_time : Option Int) = st
        cases st with
        | none => rfl
        | some ct =>
          show projBA (if rS ≤ ct ∧ ct < rE then
              updAcc m (UKey.num (getHours ct)) (fun x => { x with bookings := x.bookings + 1 })
            else m) = projBA m
          by_cases hc : rS ≤ ct ∧ ct < rE
          · rw [if_pos hc]
            exact projBA_upd_bookings m _
          · rw [if_neg hc]
      · rw [if_neg hs0]

theorem numeratorStep_hour_congr (inc : List String) (sc : List Resource) (rS rE : Int)
    (opts : Option UtilizationOptions) (b : Booking) (m mtwo : UKey → Acc)
    (hmm : projBA m = projBA mtwo) :
    projBA (numeratorStep inc sc rS rE .hour opts m b) =
      projBA (numeratorStep inc sc rS rE .hour opts mtwo b) := by
  cases hl : lookupById sc b.resource_id with
  | none =>
    simp only [numeratorStep, hl]
    split <;> exact hmm
  | some r =>
    simp [numeratorStep, hl]
    set st := (if dlt b.start_time (some rS) then some rS else b.start_time : Option Int) with hst
    set en2 := (if dlt (some rE) b.end_time then some rE else b.end_time : Option Int) with hen2
    clear_value st en2
    clear hst hen2
    have hcomm : ∀ (hs cs ce : Int) (x : UKey → Acc),
        projBA (if isOpenHour opts (getHours hs) then
            updAcc x (UKey.num (getHours hs))
              (fun y : Acc =>
                { bookedMin := jadd y.bookedMin (some (max 0 (msToMin (ce - cs)))),
                  availMin := y.availMin, bookings := y.bookings,
                  resourcesCount := y.resourcesCount })
          else x) =
        (if isOpenHour opts (getHours hs) then
            (fun k' => if k' = UKey.num (getHours hs)
              then (jadd (projBA x k').1 (some (max 0 (msToMin (ce - cs)))), (projBA x k').2)
              else projBA x k')
          else projBA x) := by
      intro hs cs ce x
      by_cases ho : isOpenHour opts (getHours hs) = true
      · simp only [if_pos ho]
        funext k'
        simp only [projBA, updAcc]
        by_cases hk : k' = UKey.num (getHours hs)
        · rw [if_pos hk, if_pos hk]
        · rw [if_neg hk, if_neg hk]
      · simp only [if_neg ho]
    have hrwgen : ∀ (stx enx : Option Int) (A : UKey → Acc),
        projBA (runBookingWalk stx enx
          (fun (hourStart chunkStart chunkEnd : Int) (a : UKey → Acc) =>
            if isOpenHour opts (getHours hourStart) then
              updAcc a (UKey.num (getHours hourStart))
                (fun y : Acc =>
                  { bookedMin := jadd y.bookedMin
                      (some (max 0 (msToMin (chunkEnd - chunkStart)))),
                    availMin := y.availMin, bookings := y.bookings,
                    resourcesCount := y.resourcesCount })
            else a)
          true A) =
        runBookingWalk stx enx
          (fun (hourStart chunkStart chunkEnd : Int) (pm : UKey → Option ℚ × ℚ) =>
            if isOpenHour opts (getHours hourStart) then
              (fun k' => if k' = UKey.num (getHours hourStart)
                then (jadd (pm k').1 (some (max 0 (msToMin (chunkEnd - chunkStart)))), (pm k').2)
                else pm k')
            else pm)
          true (projBA A) :=
      fun stx enx A => runBookingWalk_map projBA stx enx _ _ true A hcomm
    by_cases hs0 : b.status ∈ inc
    · simp only [if_pos hs0]
      by_cases hdle : dle en2 st = true
      · simp only [if_pos hdle]
        exact hmm
      · simp only [if_neg hdle]
        rw [hrwgen st en2 _, hrwgen st en2 _]
        refine congrArg _ ?_
        clear hdle
        cases st with
        | none => exact hmm
        | some ct =>
          show projBA (if rS ≤ ct ∧ ct < rE then
              updAcc m (UKey.num (getHours ct)) (fun x => { x with bookings := x.bookings + 1 })
            else m) = projBA (if rS ≤ ct ∧ ct < rE then
              updAcc mtwo (UKey.num (getHours ct)) (fun x => { x with bookings := x.bookings + 1 })
            else mtwo)
          by_cases hc : rS ≤ ct ∧ ct < rE
          · rw [if_pos hc, if_pos hc, projBA_upd_bookings m _, projBA_upd_bookings mtwo _]
            exact hmm
          · rw [if_neg hc, if_neg hc]
            exact hmm
    · simp only [if_neg hs0]
      exact hmm

/-- Claim C1 amended: a booking with an unparseable timestamp contributes to
no percentage output: removing it leaves the results of
`buildDailyUtilizationTrend`, `buildUtilizationStatusByType`,
`buildWeeklyUsageHeatmap`, `buildUtilizationByRoomName` and
`buildRoomTimebandHeatmap` unchanged.  (The exceptions, shown by the
counterexample, are the booking counters of `computeUtilizationMetrics` /
`buildWeeklyUtilizationAndBookings`, which can still count a booking whose
clamped start parses while its end does not, and the `NaN` that the
type-grouping path of `computeUtilizationMetrics` adds to `bookedMin`.) -/
theorem C1_amended :
    (∀ (bks1 bks2 : List Booking) (b : Booking) (rs : List Resource) (rS rE : Int)
        (opts : Option UtilizationOptions),
      b.start_time = none ∨ b.end_time = none →
      buildDailyUtilizationTrend (bks1 ++ b :: bks2) rs rS rE opts =
        buildDailyUtilizationTrend (bks1 ++ bks2) rs rS rE opts) ∧
    (∀ (bks1 bks2 : List Booking) (b : Booking) (rs : List Resource) (rS rE : Int)
        (opts : Option UtilizationOptions),
      b.start_time = none ∨ b.end_time = none →
      buildUtilizationStatusByType (bks1 ++ b :: bks2) rs rS rE opts =
        buildUtilizationStatusByType (bks1 ++ bks2) rs rS rE opts) ∧
    (∀ (bks1 bks2 : List Booking) (b : Booking) (rs : List Resource) (rS rE : Int)
        (opts : Option UtilizationOptions),
      b.start_time = none ∨ b.end_time = none →
      buildWeeklyUsageHeatmap (bks1 ++ b :: bks2) rs rS rE opts =
        buildWeeklyUsageHeatmap (bks1 ++ bks2) rs rS rE opts) ∧
    (∀ (bks1 bks2 : List Booking) (b : Booking) (rs : List Resource) (rS rE : Int)
        (opts : Option UtilizationOptions),
      b.start_time = none ∨ b.end_time = none →
      buildUtilizationByRoomName (bks1 ++ b :: bks2) rs rS rE opts =
        buildUtilizationByRoomName (bks1 ++ bks2) rs rS rE opts) ∧
    (∀ (bks1 bks2 : List Booking) (b : Booking) (rs : List Resource) (rS rE : Int)
        (opts : Option UtilizationOptions),
      b.start_time = none ∨ b.end_time = none →
      buildRoomTimebandHeatmap (bks1 ++ b :: bks2) rs rS rE opts =
        buildRoomTimebandHeatmap (bks1 ++ bks2) rs rS rE opts) := by
  refine ⟨?_, ?_, ?_, ?_, ?_⟩
  · intro bks1 bks2 b rs rS rE opts hb
    have hacc : projBA (computeUtilizationMetrics (bks1 ++ b :: bks2) rs rS rE .hour opts) =
        projBA (computeUtilizationMetrics (bks1 ++ bks2) rs rS rE .hour opts) := by
      simp only [computeUtilizationMetrics, reduceIte]
      rw [List.foldl_append, List.foldl_append, List.foldl_cons]
      have hcong : ∀ (l : List Booking) (x y : UKey → Acc), projBA x = projBA y →
          projBA (List.foldl (numeratorStep
            ((oget opts (·.includeStatuses)).getD defaultStatuses)
            (rs.filter (keepResource opts)) rS rE .hour opts) x l) =
          projBA (List.foldl (numeratorStep
            ((oget opts (·.includeStatuses)).getD defaultStatuses)
            (rs.filter (keepResource opts)) rS rE .hour opts) y l) := by
        intro l
        induction l with
        | nil => intro x y hxy; simpa using hxy
        | cons c l ih =>
          intro x y hxy
          simp only [List.foldl_cons]
          exact ih _ _ (numeratorStep_hour_congr _ _ rS rE opts c x y hxy)
      exact hcong bks2 _ _ (numeratorStep_hour_unparseable _ _ rS rE opts _ b hb)
    simp only [buildDailyUtilizationTrend]
    refine List.map_congr_left ?_
    intro h hh
    have hk := congrFun hacc (UKey.num (h : Int))
    simp only [projBA] at hk
    rw [Prod.mk.injEq] at hk
    obtain ⟨h1, h2⟩ := hk
    rw [h1, h2]
  · intro bks1 bks2 b rs rS rE opts hb
    simp only [buildUtilizationStatusByType]
    rw [foldl_middle_id _ b (fun s => statusStep_unparseable _ _ _ _ _ s b hb)]
  · intro bks1 bks2 b rs rS rE opts hb
    simp only [buildWeeklyUsageHeatmap]
    rw [foldl_middle_id _ b (fun s => heatStep_unparseable _ _ _ _ _ s b hb)]
  · intro bks1 bks2 b rs rS rE opts hb
    simp only [buildUtilizationByRoomName]
    rw [foldl_middle_id _ b (fun s => roomStep_unparseable _ _ _ _ _ s b hb)]
  · intro bks1 bks2 b rs rS rE opts hb
    simp only [buildRoomTimebandHeatmap]
    rw [foldl_middle_id _ b (fun s => bandStep_unparseable _ _ _ _ _ s b hb)]

/-- Witness instantiating the amended C1 statement: the unparseable-end
booking leaves the daily trend untouched. -/
theorem C1_amended_witness :
    buildDailyUtilizationTrend [badBk] rsA 0 86400000 none =
      buildDailyUtilizationTrend [] rsA 0 86400000 none :=
  C1_amended.1 [] [] badBk rsA 0 86400000 none (Or.inr rfl)

end LV
